import Mathlib

/-!
Verification of the sanctions-screener service (src/main.py, src/heatmap.py)
against its natural-language specification.

The Python code is shallowly embedded: JSON values (the only data the service
manipulates) become the inductive type `Json`, Python dictionaries become
association lists that keep insertion order, Python numbers (int/float)
become `Rat`, and Python's `None` is `Json.null`.  Each embedded definition
mirrors one function of the source and keeps its name.
-/

namespace Screener

/-- A parsed JSON value / the Python values the service manipulates.
Python's `None` is `null`; ints and floats are both `num` (over `Rat`);
dicts are `obj` with string keys in insertion order. -/
inductive Json where
  | null
  | bool (b : Bool)
  | num (q : Rat)
  | str (s : String)
  | arr (elems : List Json)
  | obj (fields : List (String × Json))
deriving Inhabited

/-- Python truthiness `bool(x)`: `None`, `False`, `0`, `""`, `[]`, `{}` are falsy. -/
def Json.truthy : Json → Bool
  | .null => false
  | .bool b => b
  | .num q => q != 0
  | .str s => s != ""
  | .arr xs => !xs.isEmpty
  | .obj kvs => !kvs.isEmpty

/-- `x is None` in Python. -/
def Json.isNull : Json → Bool
  | .null => true
  | _ => false

/-- `isinstance(x, list)`. -/
def Json.isList : Json → Bool
  | .arr _ => true
  | _ => false

/-- `isinstance(x, str)`. -/
def Json.isStr : Json → Bool
  | .str _ => true
  | _ => false

/-- `isinstance(x, dict)`. -/
def Json.isDict : Json → Bool
  | .obj _ => true
  | _ => false

/-- `d.get(k)` on a Python dict: the first binding of `k`, `None` when absent. -/
def dictGet (kvs : List (String × Json)) (k : String) : Json :=
  (kvs.lookup k).getD .null

/-- `d.get(k, dflt)` on a Python dict. -/
def dictGetD (kvs : List (String × Json)) (k : String) (dflt : Json) : Json :=
  (kvs.lookup k).getD dflt

/-- Python's `a or b` on values: `a` when truthy, else `b`. -/
def pyOr (a b : Json) : Json :=
  if a.truthy then a else b

/-- Python `s.lower()` (ASCII, the same character mapping as `String.toLower`,
spelled over the character list so that it evaluates inside the kernel). -/
def pyLower (s : String) : String :=
  String.mk (s.data.map Char.toLower)

/-- The key test of `recursive_find` (src/main.py line 32):
`k and isinstance(k, str) and k.lower() in [kk.lower() for kk in keys]`.
Keys of an embedded JSON object are always strings, so the `isinstance`
conjunct is always true; `k` truthy means `k` nonempty. -/
def key_matches (k : String) (keys : List String) : Bool :=
  k != "" && (keys.map pyLower).contains (pyLower k)

mutual
/-- Embedding of `recursive_find(obj, keys)` (src/main.py lines 27-42).
Python returns `None` both for "no match" and for a matched `null` value;
the embedding returns `Json.null` in both cases, exactly as the code does. -/
def recursive_find (obj : Json) (keys : List String) : Json :=
  match obj with
  | .obj kvs => recursive_find_obj kvs keys
  | .arr xs => recursive_find_list xs keys
  | _ => .null

/-- The `for k, v in obj.items()` loop of `recursive_find`. -/
def recursive_find_obj (kvs : List (String × Json)) (keys : List String) : Json :=
  match kvs with
  | [] => .null
  | (k, v) :: rest =>
    if key_matches k keys then v
    else
      let val := recursive_find v keys
      if val.isNull then recursive_find_obj rest keys else val

/-- The `for item in obj` loop of `recursive_find`. -/
def recursive_find_list (xs : List Json) (keys : List String) : Json :=
  match xs with
  | [] => .null
  | x :: rest =>
    let val := recursive_find x keys
    if val.isNull then recursive_find_list rest keys else val
end

/-- The values of all matching keys of the tree in depth-first order, each
dictionary key tested before its value is descended into, no pruning.
The claim describes `recursive_find` as returning the head of this list. -/
def dfs_matched_values (obj : Json) (keys : List String) : List Json :=
  match obj with
  | .obj [] => []
  | .obj ((k, v) :: rest) =>
    (if key_matches k keys then [v] else []) ++ dfs_matched_values v keys
      ++ dfs_matched_values (.obj rest) keys
  | .arr [] => []
  | .arr (x :: rest) => dfs_matched_values x keys ++ dfs_matched_values (.arr rest) keys
  | _ => []

/-- Matched-key values in depth-first order with the pruning the code
actually performs: a matching key ends the scan of its own dictionary
(its value is recorded, its subtree and its later siblings are skipped). -/
def matched_values_pruned (obj : Json) (keys : List String) : List Json :=
  match obj with
  | .obj [] => []
  | .obj ((k, v) :: rest) =>
    if key_matches k keys then [v]
    else matched_values_pruned v keys ++ matched_values_pruned (.obj rest) keys
  | .arr [] => []
  | .arr (x :: rest) => matched_values_pruned x keys ++ matched_values_pruned (.arr rest) keys
  | _ => []

/-- The first non-`null` element of a list of values, `null` when there is none. -/
def first_non_null (l : List Json) : Json :=
  (l.find? (fun j => !j.isNull)).getD .null

lemma Json.isNull_iff {j : Json} : j.isNull = true ↔ j = .null := by
  cases j <;> simp [Json.isNull]

lemma first_non_null_nil : first_non_null [] = .null := rfl

lemma first_non_null_singleton (v : Json) :
    (if v.isNull then Json.null else v) = first_non_null [v] := by
  by_cases h : v.isNull <;> simp [first_non_null, List.find?, h]

lemma first_non_null_append (a b : List Json) :
    first_non_null (a ++ b) =
      if (first_non_null a).isNull then first_non_null b else first_non_null a := by
  induction a with
  | nil => simp [first_non_null, Json.isNull]
  | cons x xs ih =>
    by_cases hx : x.isNull
    · simpa [first_non_null, List.find?, hx] using ih
    · simp [first_non_null, List.find?, hx]

lemma recursive_find_eq_obj (kvs : List (String × Json)) (keys : List String) :
    recursive_find (.obj kvs) keys = recursive_find_obj kvs keys := by
  simp [recursive_find]

lemma recursive_find_eq_arr (xs : List Json) (keys : List String) :
    recursive_find (.arr xs) keys = recursive_find_list xs keys := by
  simp [recursive_find]

lemma recursive_find_eq_first_pruned (obj : Json) (keys : List String) :
    recursive_find obj keys = first_non_null (matched_values_pruned obj keys) := by
  induction obj, keys using matched_values_pruned.induct with
  | case1 keys => simp [recursive_find_eq_obj, recursive_find_obj, matched_values_pruned,
      first_non_null]
  | case2 keys k v rest h =>
    simp only [recursive_find_eq_obj, recursive_find_obj, matched_values_pruned, h, if_true]
    cases v <;> simp [first_non_null, List.find?, Json.isNull]
  | case3 keys k v rest h ihv ihrest =>
    rw [recursive_find_eq_obj, recursive_find_obj]
    simp only [h, if_false, Bool.false_eq_true]
    rw [matched_values_pruned]
    simp only [h, if_false, Bool.false_eq_true]
    rw [first_non_null_append, ← ihv, ← ihrest, ← recursive_find_eq_obj]
  | case4 keys => simp [recursive_find_eq_arr, recursive_find_list, matched_values_pruned,
      first_non_null]
  | case5 keys x rest ihv ihrest =>
    rw [recursive_find_eq_arr, recursive_find_list, matched_values_pruned,
      first_non_null_append, ← ihv, ← ihrest, ← recursive_find_eq_arr]
  | case6 obj keys h1 h2 h3 h4 =>
    cases obj with
    | null => simp [recursive_find, matched_values_pruned, first_non_null]
    | bool b => simp [recursive_find, matched_values_pruned, first_non_null]
    | num q => simp [recursive_find, matched_values_pruned, first_non_null]
    | str s => simp [recursive_find, matched_values_pruned, first_non_null]
    | arr xs =>
      cases xs with
      | nil => exact absurd rfl h3
      | cons a l => exact absurd rfl (h4 a l)
    | obj kvs =>
      cases kvs with
      | nil => exact absurd rfl h1
      | cons p l => exact absurd rfl (h2 p.1 p.2 l)

lemma matched_values_pruned_subset (obj : Json) (keys : List String) :
    ∀ v ∈ matched_values_pruned obj keys, v ∈ dfs_matched_values obj keys := by
  induction obj, keys using matched_values_pruned.induct with
  | case1 keys => simp [matched_values_pruned]
  | case2 keys k v rest h => simp [matched_values_pruned, dfs_matched_values, h]
  | case3 keys k v rest h ihv ihrest =>
    intro w hw
    rw [matched_values_pruned] at hw
    simp only [h, if_false, Bool.false_eq_true, List.mem_append] at hw
    rw [dfs_matched_values]
    simp only [h, if_false, Bool.false_eq_true, List.nil_append, List.mem_append]
    rcases hw with hw | hw
    · exact Or.inl (ihv w hw)
    · exact Or.inr (ihrest w hw)
  | case4 keys => simp [matched_values_pruned]
  | case5 keys x rest ihv ihrest =>
    intro w hw
    rw [matched_values_pruned] at hw
    simp only [List.mem_append] at hw
    rw [dfs_matched_values]
    simp only [List.mem_append]
    rcases hw with hw | hw
    · exact Or.inl (ihv w hw)
    · exact Or.inr (ihrest w hw)
  | case6 obj keys h1 h2 h3 h4 =>
    cases obj with
    | null => simp [matched_values_pruned]
    | bool b => simp [matched_values_pruned]
    | num q => simp [matched_values_pruned]
    | str s => simp [matched_values_pruned]
    | arr xs =>
      cases xs with
      | nil => exact absurd rfl h3
      | cons a l => exact absurd rfl (h4 a l)
    | obj kvs =>
      cases kvs with
      | nil => exact absurd rfl h1
      | cons p l => exact absurd rfl (h2 p.1 p.2 l)

/-- A JSON tree on which the claimed description of `recursive_find` fails:
the first matching key in depth-first order (keys tested before values) is
the nested `"name"` whose value is `null`, yet the function skips it and
returns the later `"x"`. -/
def c1_obj : Json := .obj [("a", .obj [("name", .null)]), ("name", .str "x")]

/-- **C1, counterexample.** On `{"a": {"name": null}, "name": "x"}` with keys
`["name"]`, the value of the first case-insensitively matching string key in
depth-first order is `null`, but `recursive_find` returns `"x"`: the claim
that it returns the value of the first matching key is false as stated. -/
theorem c1_recursive_find_counterexample :
    recursive_find c1_obj ["name"] = .str "x" ∧
    (dfs_matched_values c1_obj ["name"]).headD Json.null = Json.null ∧
    recursive_find c1_obj ["name"] ≠ (dfs_matched_values c1_obj ["name"]).headD Json.null := by
  have ha : key_matches "a" ["name"] = false := by decide
  have hn : key_matches "name" ["name"] = true := by decide
  refine ⟨?_, ?_, ?_⟩ <;>
    simp [c1_obj, recursive_find, recursive_find_obj, recursive_find_list,
      dfs_matched_values, ha, hn, Json.isNull]

/-- **C1, amended.** `recursive_find(obj, keys)` is a depth-first search that
traverses dictionaries in insertion order (testing each key before descending
into its value, and abandoning the rest of a dictionary at its first matching
key) and lists in element order; it returns the first non-`None` value among
the matched-key values so encountered — a nested matching key whose value is
`None` is passed over — and it returns `None` when `obj` is `None`, when `obj`
is a scalar, or when no key in the tree matches. -/
theorem c1_recursive_find_amended (obj : Json) (keys : List String) :
    recursive_find obj keys = first_non_null (matched_values_pruned obj keys) ∧
    (dfs_matched_values obj keys = [] → recursive_find obj keys = .null) ∧
    recursive_find .null keys = .null := by
  refine ⟨recursive_find_eq_first_pruned obj keys, fun hnil => ?_, rfl⟩
  have hsub := matched_values_pruned_subset obj keys
  rw [hnil] at hsub
  have hempty : matched_values_pruned obj keys = [] := by
    cases hmv : matched_values_pruned obj keys with
    | nil => rfl
    | cons a l => exact absurd (hsub a (by simp [hmv])) (by simp)
  rw [recursive_find_eq_first_pruned, hempty, first_non_null_nil]

/-! ## `coerce_score` and `normalize_result_record` (src/main.py lines 44-105) -/

/-- Numeric value of a digit list (most significant first). -/
def digitsVal (cs : List Char) : Nat :=
  cs.foldl (fun a c => a * 10 + (c.toNat - 48)) 0

/-- An unsigned decimal literal `digits [. digits]`, as an exact rational. -/
def parseUnsignedFloat? (cs : List Char) : Option Rat :=
  let intPart := cs.takeWhile Char.isDigit
  let rest := cs.dropWhile Char.isDigit
  match rest with
  | [] => if intPart.isEmpty then none else some (digitsVal intPart)
  | '.' :: frac =>
    if frac.all Char.isDigit && !(intPart.isEmpty && frac.isEmpty) then
      some ((digitsVal intPart : Rat) + (digitsVal frac : Rat) / ((10 : Rat) ^ frac.length))
    else none
  | _ => none

/-- Python `s.strip()` (whitespace). -/
def pyTrim (s : String) : String :=
  String.mk (((s.data.dropWhile Char.isWhitespace).reverse.dropWhile Char.isWhitespace).reverse)

/-- Python `float(x)` where it succeeds: numbers and booleans coerce, strings
parse as decimal literals (exotic float syntax — exponents, `inf`, `nan`,
underscores — is not modelled; the service never feeds it scores), and
`None`, lists and dicts raise. -/
def pyFloat? : Json → Option Rat
  | .num q => some q
  | .bool b => some (if b then 1 else 0)
  | .str s =>
    (match (pyTrim s).data with
     | '-' :: rest => (parseUnsignedFloat? rest).map Neg.neg
     | '+' :: rest => parseUnsignedFloat? rest
     | cs => parseUnsignedFloat? cs)
  | _ => none

/-- Embedding of `coerce_score(s)` (src/main.py lines 44-48): `float(s)`,
`0.0` when the coercion raises. -/
def coerce_score (s : Json) : Rat :=
  (pyFloat? s).getD 0

/-- Python `list(x)` where it succeeds: lists copy, dicts list their keys,
strings list their one-character substrings; other values raise `TypeError`. -/
def pyList? : Json → Option (List Json)
  | .arr xs => some xs
  | .obj kvs => some (kvs.map (fun p => Json.str p.1))
  | .str s => some (s.data.map (fun c => Json.str (String.mk [c])))
  | _ => none

/-- The datasets massaging of `normalize_result_record` (src/main.py lines
55-61): a string becomes a singleton, a non-list becomes `list(datasets)`
when truthy (`[]` when falsy or when `list` raises). -/
def massage_datasets (d : Json) : Json :=
  let d1 := if d.isStr then Json.arr [d] else d
  if d1.isList then d1
  else if d1.truthy then
    match pyList? d1 with
    | some xs => .arr xs
    | none => .arr []
  else .arr []

/-- The sources extraction of `normalize_result_record` (src/main.py lines
64-74): the raw `sources` field when truthy, else a recursive search under
`entity`/`record`/the record itself, kept only when a list or a string. -/
def sources_of (r : List (String × Json)) : Json :=
  if (dictGet r "sources").truthy then dictGet r "sources"
  else
    let e := pyOr (dictGet r "entity") (pyOr (dictGet r "record") (.obj r))
    let s := recursive_find e ["sources", "source", "urls", "url", "links", "link"]
    if s.truthy then
      if s.isList then s
      else if s.isStr then .arr [s]
      else .arr []
    else .arr []

/-- The aliases massaging of `normalize_result_record` (src/main.py lines
78-89): a truthy string becomes a singleton, a dict keeps its string values,
a list keeps its string elements, anything else becomes `[]`. -/
def massage_aliases (a : Json) : Json :=
  if a.truthy then
    match a with
    | .str _ => .arr [a]
    | .obj kvs => .arr ((kvs.map Prod.snd).filter Json.isStr)
    | .arr xs => .arr (xs.filter Json.isStr)
    | _ => .arr []
  else .arr []

/-- Body of `normalize_result_record(r)` (src/main.py lines 50-105) on the
fields of the input dict. -/
def normalize_result_record_obj (r : List (String × Json)) : Json :=
  let name := pyOr (dictGet r "caption") (pyOr (dictGet r "name")
      (pyOr (recursive_find (.obj r) ["name", "caption"]) (.str "")))
  let score := coerce_score (dictGetD r "score" (.num 0))
  let datasets := massage_datasets (pyOr (dictGet r "datasets") (pyOr (dictGet r "dataset")
      (pyOr (recursive_find (.obj r) ["datasets", "dataset", "lists"]) (.arr []))))
  let sources := sources_of r
  let dob := recursive_find (.obj r) ["birth_date", "date_of_birth", "dob", "birthdate"]
  let nationality := recursive_find (.obj r)
      ["nationality", "country", "citizenship", "country_of_residence", "citizenships"]
  let aliases := massage_aliases (recursive_find (.obj r)
      ["other_names", "aliases", "aka", "alternate_names", "names"])
  let pob := recursive_find (.obj r) ["birth_place", "place_of_birth", "born_in"]
  .obj [("name", name), ("score", .num score), ("datasets", datasets),
    ("sources", sources),
    ("identity", .obj [("date_of_birth", dob), ("place_of_birth", pob),
      ("nationality", nationality), ("aliases", aliases)]),
    ("raw", .obj (r.filter (fun p => ["caption", "score", "datasets", "id"].contains p.1)))]

/-- Embedding of `normalize_result_record(r)` (src/main.py lines 50-105);
`none` when `r` is not a dict (every `r.get` would raise `AttributeError`,
which no caller catches). -/
def normalize_result_record (j : Json) : Option Json :=
  match j with
  | .obj r => some (normalize_result_record_obj r)
  | _ => none

/-- Field access on a JSON object, `null` elsewhere. -/
def field_of (j : Json) (k : String) : Json :=
  match j with
  | .obj f => dictGet f k
  | _ => .null

/-- A list all of whose elements are strings. -/
def isListOfStrings : Json → Bool
  | .arr xs => xs.all Json.isStr
  | _ => false

/-- **C1, witness.** The amended claim instantiated on the scalar `5`:
no key in the tree matches, and the search returns `None`. -/
theorem c1_recursive_find_amended_witness :
    recursive_find (Json.num 5) ["k"] = Json.null ∧
    dfs_matched_values (Json.num 5) ["k"] = [] :=
  ⟨(c1_recursive_find_amended (Json.num 5) ["k"]).2.1 (by simp [dfs_matched_values]), by
    simp [dfs_matched_values]⟩

lemma massage_datasets_isList (d : Json) : (massage_datasets d).isList = true := by
  cases d with
  | null => rfl
  | bool b => cases b <;> rfl
  | num q =>
    by_cases h : q = 0 <;>
      simp [massage_datasets, Json.isStr, Json.isList, Json.truthy, pyList?, h]
  | str s => rfl
  | arr xs => rfl
  | obj kvs => cases kvs <;> rfl

lemma filter_all_isStr (xs : List Json) : (xs.filter Json.isStr).all Json.isStr = true := by
  rw [List.all_eq_true]
  intro x hx
  exact (List.mem_filter.mp hx).2

lemma massage_aliases_listOfStrings (a : Json) : isListOfStrings (massage_aliases a) = true := by
  cases a with
  | null => rfl
  | bool b => cases b <;> rfl
  | num q => by_cases h : q = 0 <;> simp [massage_aliases, Json.truthy, isListOfStrings, h]
  | str s =>
    by_cases h : s = "" <;>
      simp [massage_aliases, Json.truthy, isListOfStrings, h, Json.isStr]
  | arr xs =>
    cases xs with
    | nil => rfl
    | cons y ys => simp [massage_aliases, Json.truthy, isListOfStrings, filter_all_isStr]
  | obj kvs =>
    cases kvs with
    | nil => rfl
    | cons p l => simp [massage_aliases, Json.truthy, isListOfStrings, filter_all_isStr]

lemma sources_of_isList_of_falsy (r : List (String × Json))
    (h : (dictGet r "sources").truthy = false) : (sources_of r).isList = true := by
  rw [sources_of]
  simp only [h, Bool.false_eq_true, if_false]
  set s := recursive_find (pyOr (dictGet r "entity") (pyOr (dictGet r "record") (.obj r)))
      ["sources", "source", "urls", "url", "links", "link"] with hs
  by_cases h1 : s.truthy
  · simp only [h1, if_true]
    by_cases h2 : s.isList
    · simp [h2]
    · simp only [h2, Bool.false_eq_true, if_false]
      by_cases h3 : s.isStr <;> simp [h3, Json.isList]
  · simp [h1, Json.isList]

/-- **C8, counterexample.** On the input dict `{"sources": "u"}` the record's
truthy non-list `sources` field is passed through unchanged, so the `sources`
entry of the normalized record is the string `"u"`, not a list: the claim
that `sources` is always a list is false as stated. -/
theorem c8_normalize_counterexample :
    normalize_result_record (.obj [("sources", .str "u")])
      = some (normalize_result_record_obj [("sources", .str "u")]) ∧
    field_of (normalize_result_record_obj [("sources", .str "u")]) "sources" = .str "u" ∧
    (field_of (normalize_result_record_obj [("sources", .str "u")]) "sources").isList
      = false := by
  have ht : (Json.str "u").truthy = true := by decide
  refine ⟨rfl, ?_, ?_⟩ <;>
    simp [normalize_result_record_obj, field_of, dictGet, List.lookup, sources_of, ht,
      Json.isList]

/-- **C8, amended.** For every input dictionary, `normalize_result_record`
returns a reshaped JSON object with exactly the keys `name`, `score`,
`datasets`, `sources`, `identity`, and `raw`, where `score` is the float
coercion of the record's `score` field (`0.0` when coercion fails),
`datasets` is a list, `sources` is the record's own `sources` field passed
through unchanged when that field is truthy (and hence a list only when that
field is one) and otherwise a list, `identity.aliases` is a list of strings,
and `raw` contains only the `caption`, `score`, `datasets`, and `id` fields
of the input. -/
theorem c8_normalize_amended (r : List (String × Json)) :
    normalize_result_record (.obj r) = some (normalize_result_record_obj r) ∧
    (∃ fields, normalize_result_record_obj r = .obj fields ∧
      fields.map Prod.fst = ["name", "score", "datasets", "sources", "identity", "raw"]) ∧
    field_of (normalize_result_record_obj r) "score"
      = .num (coerce_score (dictGetD r "score" (.num 0))) ∧
    (field_of (normalize_result_record_obj r) "datasets").isList = true ∧
    ((dictGet r "sources").truthy = true →
      field_of (normalize_result_record_obj r) "sources" = dictGet r "sources") ∧
    ((dictGet r "sources").truthy = false →
      (field_of (normalize_result_record_obj r) "sources").isList = true) ∧
    isListOfStrings
      (field_of (field_of (normalize_result_record_obj r) "identity") "aliases") = true ∧
    field_of (normalize_result_record_obj r) "raw"
      = .obj (r.filter (fun p => ["caption", "score", "datasets", "id"].contains p.1)) := by
  refine ⟨rfl, ⟨_, rfl, rfl⟩, ?_, ?_, ?_, ?_, ?_, ?_⟩
  · simp [normalize_result_record_obj, field_of, dictGet, List.lookup]
  · simp [normalize_result_record_obj, field_of, dictGet, List.lookup, massage_datasets_isList]
  · intro h
    have hs : sources_of r = dictGet r "sources" := by rw [sources_of]; simp [h]
    simp [normalize_result_record_obj, field_of, dictGet, List.lookup, hs]
  · intro h
    simp [normalize_result_record_obj, field_of, dictGet, List.lookup,
      sources_of_isList_of_falsy r h]
  · simp [normalize_result_record_obj, field_of, dictGet, List.lookup,
      massage_aliases_listOfStrings]
  · simp [normalize_result_record_obj, field_of, dictGet, List.lookup]

/-- **C8, amended, witness.** The amended claim instantiated on the dict
`{"score": 0.9, "id": "e1"}`: the falsy-`sources` hypotheses are discharged
and the normalized record's fields are checked concretely. -/
theorem c8_normalize_amended_witness :
    (dictGet [("score", Json.num (9/10)), ("id", Json.str "e1")] "sources").truthy = false ∧
    (field_of (normalize_result_record_obj [("score", Json.num (9/10)), ("id", Json.str "e1")])
      "sources").isList = true ∧
    field_of (normalize_result_record_obj [("score", Json.num (9/10)), ("id", Json.str "e1")])
      "score" = .num (9/10) := by
  have h := c8_normalize_amended [("score", Json.num (9/10)), ("id", Json.str "e1")]
  have hf : (dictGet [("score", Json.num (9/10)), ("id", Json.str "e1")] "sources").truthy
      = false := by rfl
  refine ⟨hf, h.2.2.2.2.2.1 hf, ?_⟩
  rw [h.2.2.1]
  rfl

/-! ## The `POST /screen` handler `screen_person` (src/main.py lines 111-236) -/

/-- The process environment: variable name to value, `none` when unset. -/
abbrev Env := String → Option String

/-- Digits parse (`int` accepts only digits after the optional sign). -/
def parseNat? (cs : List Char) : Option Nat :=
  if !cs.isEmpty && cs.all Char.isDigit then some (digitsVal cs) else none

/-- Python `int(s)`: optional sign and digits after stripping whitespace
(underscore digit grouping is not modelled). -/
def pyInt? (s : String) : Option Int :=
  match (pyTrim s).data with
  | '-' :: rest => (parseNat? rest).map (fun n => -(n : Int))
  | '+' :: rest => (parseNat? rest).map (fun n => (n : Int))
  | cs => (parseNat? cs).map (fun n => (n : Int))

/-- `MAX_RESULTS` (src/main.py lines 117-120):
`int(os.getenv("OPENSANCTIONS_MAX_RESULTS", "50"))`, `50` when `int` raises. -/
def maxResults (env : Env) : Int :=
  (pyInt? ((env "OPENSANCTIONS_MAX_RESULTS").getD "50")).getD 50

/-- `j.get(k, dflt)` as Python evaluates it on an arbitrary value: `none`
models the `AttributeError` a non-dict raises. -/
def pyGetAttrD (j : Json) (k : String) (dflt : Json) : Option Json :=
  match j with
  | .obj kvs => some (dictGetD kvs k dflt)
  | _ => none

/-- Lines 155-159: `data.get("responses", {}).get("q1", {}).get("results", [])`
inside `try`, `[]` when any step raises. -/
def try_match_results (data : Json) : Json :=
  ((do
    let a ← pyGetAttrD data "responses" (.obj [])
    let b ← pyGetAttrD a "q1" (.obj [])
    pyGetAttrD b "results" (.arr [])) : Option Json).getD (.arr [])

/-- Lines 161-167: the isinstance massaging of `match_results`.  The wildcard
row is unreachable: a non-dict `data` already made `try_match_results` a
list, so line 165's `data.get` only ever runs on a dict. -/
def match_results_json (data : Json) : Json :=
  let m0 := try_match_results data
  let m1 :=
    if m0.isList then m0
    else match data with
      | .arr _ => data
      | .obj kvs => pyOr (dictGet kvs "matches") (pyOr (dictGet kvs "results") m0)
      | _ => m0
  pyOr m1 (.arr [])

/-- Python `str(x)` as interpolated by `record_key`'s f-strings: scalars
follow Python (`Rat` rendering differs in spelling from float `repr`, which
only re-labels, never merges, distinct numeric ids); container rendering is
schematic (Python would quote nested strings). -/
def pyStr : Json → String
  | .null => "None"
  | .bool b => if b then "True" else "False"
  | .num q => toString q
  | .str s => s
  | .arr _ => "[...]"
  | .obj _ => "\x7b...\x7d"

/-- `j.get(k, dflt)` where `j` is known to be a dict (`record_key` only
ever receives normalized records, which are dicts). -/
def field_ofD (j : Json) (k : String) (dflt : Json) : Json :=
  match j with
  | .obj f => dictGetD f k dflt
  | _ => dflt

/-- Embedding of `record_key(r)` (src/main.py lines 174-179): `id::<raw.id>`
when `raw.id` is truthy, else `name::<name>_score::<score>`. -/
def record_key (r : Json) : String :=
  let raw_id := field_of (pyOr (field_of r "raw") (.obj [])) "id"
  if raw_id.truthy then "id::" ++ pyStr raw_id
  else "name::" ++ pyStr (field_ofD r "name" (.str ""))
    ++ "_score::" ++ pyStr (field_ofD r "score" (.num 0))

/-- `d[k] = v` on a Python dict: replaces the value in place when the key is
present (keeping its position), else appends. -/
def dictInsert (d : List (String × Json)) (k : String) (v : Json) :
    List (String × Json) :=
  match d with
  | [] => [(k, v)]
  | (k', v') :: t => if k' = k then (k', v) :: t else (k', v') :: dictInsert t k v

/-- The dedup loop of lines 181-182: fold the normalized records into the
insertion-ordered dict keyed by `record_key`. -/
def unique_by_id_from (ns : List Json) : List (String × Json) :=
  ns.foldl (fun d nr => dictInsert d (record_key nr) nr) []

/-- The normalized deduplicated collection built from the match response
(src/main.py lines 155-184), with `len(match_results)`; `none` when the
pipeline raises uncaught (a non-iterable `match_results`, or a non-dict
element reaching `normalize_result_record`). -/
def match_collection (data : Json) : Option (List (String × Json) × Nat) :=
  match pyList? (match_results_json data) with
  | none => none
  | some rl =>
    match rl.mapM normalize_result_record with
    | none => none
    | some ns => some (unique_by_id_from ns, rl.length)

/-- Lines 201-211: extraction of the search results value from `sdata`. -/
def search_results_json (sdata : Json) : Json :=
  let s0 := match sdata with | .obj kvs => dictGet kvs "results" | _ => .arr []
  let s1 := if s0.truthy then s0 else (match sdata with | .arr _ => sdata | _ => s0)
  let s2 :=
    if s1.truthy then s1
    else match sdata with
      | .obj kvs =>
        if (dictGet kvs "matches").isList then dictGet kvs "matches"
        else if (dictGet kvs "hits").isList then dictGet kvs "hits"
        else if (dictGet kvs "items").isList then dictGet kvs "items"
        else s1
      | _ => s1
  pyOr s2 (.arr [])

/-- The search merge loop (src/main.py lines 213-217): normalize each search
result into the dedup dict, breaking once the dict has reached `MAX` entries
(checked after each insertion); `none` when a result is not a dict
(`normalize_result_record` raises, and `except requests.RequestException`
does not catch it). -/
def merge_search (d : List (String × Json)) (MAX : Int) :
    List Json → Option (List (String × Json))
  | [] => some d
  | r :: rs =>
    match normalize_result_record r with
    | none => none
    | some nr =>
      let d' := dictInsert d (record_key nr) nr
      if MAX ≤ (d'.length : Int) then some d' else merge_search d' MAX rs

/-- Python `l[:n]`, including negative `n` (drop `-n` from the end). -/
def pySliceTo (n : Int) (l : List α) : List α :=
  if 0 ≤ n then l.take n.toNat else l.take (l.length - (-n).toNat)

/-- `m.get("score", 0) > 0.7` (src/main.py line 226).  The score of a
normalized record is always a number; Python would raise on ordering any
other JSON value against a float. -/
def hit_score (m : Json) : Bool :=
  match field_ofD m "score" (.num 0) with
  | .num q => (7 : Rat) / 10 < q
  | _ => false

/-- An upstream call made by `screen_person`, in order. -/
inductive Call where
  | matchCall
  | searchCall
deriving DecidableEq

/-- An upstream HTTP response: status code, and the parsed body (`none`
when `resp.json()` would raise `ValueError`). -/
structure HttpResp where
  status : Nat
  body : Option Json

/-- The upstream world `screen_person` interacts with: the outcome of the
`/match` POST and of the `/search` GET (`*_exc` models
`requests.RequestException`). -/
structure Upstream where
  match_exc : Bool
  match_resp : HttpResp
  search_exc : Bool
  search_resp : HttpResp

/-- How a `POST /screen` request can fail: a raised `HTTPException` with its
status code, or an uncaught Python exception (FastAPI's generic 500). -/
inductive ScreenErr where
  | httpException (status : Nat)
  | crash
deriving DecidableEq

/-- The JSON object returned by `screen_person` (src/main.py lines 228-236). -/
structure ScreenResponse where
  status : String
  query : String
  matches' : List Json
  raw_results_count : Nat
  requested_max_results : Int
  used_search : Bool

/-- Lines 223-236: slice the dict's values to `MAX_RESULTS` and build the
response object with the `hit`/`clean` flag. -/
def screen_response (name : String) (d : List (String × Json)) (MAX : Int)
    (rawCount : Nat) (used : Bool) : ScreenResponse :=
  let final := pySliceTo MAX (d.map Prod.snd)
  { status := if final.any hit_score then "hit" else "clean"
    query := name
    matches' := final
    raw_results_count := rawCount
    requested_max_results := MAX
    used_search := used }

/-- Embedding of the `POST /screen` handler `screen_person` (src/main.py
lines 111-236), as a function of the environment, the upstream world and the
queried name; it returns the handler's outcome together with the list of
upstream endpoints called, in order. -/
def screen_person (env : Env) (up : Upstream) (name : String) :
    Except ScreenErr ScreenResponse × List Call :=
  if (env "OPENSANCTIONS_KEY").getD "" = "" then
    (.error (.httpException 500), [])
  else
    let MAX := maxResults env
    if up.match_exc then (.error (.httpException 502), [.matchCall])
    else if up.match_resp.status ≠ 200 then (.error (.httpException 502), [.matchCall])
    else
      match up.match_resp.body with
      | none => (.error (.httpException 502), [.matchCall])
      | some data =>
        match match_collection data with
        | none => (.error .crash, [.matchCall])
        | some (d, rawCount) =>
          if (d.length : Int) < MAX then
            if up.search_exc then
              (.ok (screen_response name d MAX rawCount true), [.matchCall, .searchCall])
            else if up.search_resp.status = 200 then
              match up.search_resp.body with
              | none => (.error .crash, [.matchCall, .searchCall])
              | some sdata =>
                match pyList? (search_results_json sdata) with
                | none => (.error .crash, [.matchCall, .searchCall])
                | some srs =>
                  match merge_search d MAX srs with
                  | none => (.error .crash, [.matchCall, .searchCall])
                  | some d2 =>
                    (.ok (screen_response name d2 MAX (rawCount + srs.length) true),
                      [.matchCall, .searchCall])
            else (.ok (screen_response name d MAX rawCount true), [.matchCall, .searchCall])
          else (.ok (screen_response name d MAX rawCount false), [.matchCall])


lemma mem_keys_dictInsert (d : List (String × Json)) (k k' : String) (v : Json) :
    k' ∈ (dictInsert d k v).map Prod.fst ↔ k' = k ∨ k' ∈ d.map Prod.fst := by
  induction d with
  | nil => simp [dictInsert]
  | cons p t ih =>
    cases p with
    | mk pk pv =>
      by_cases h : pk = k
      · subst h
        simp [dictInsert]
      · simp [dictInsert, h, ih]
        tauto

lemma keys_nodup_dictInsert (d : List (String × Json)) (k : String) (v : Json)
    (h : (d.map Prod.fst).Nodup) : ((dictInsert d k v).map Prod.fst).Nodup := by
  induction d with
  | nil => simp [dictInsert]
  | cons p t ih =>
    cases p with
    | mk pk pv =>
      simp only [List.map_cons, List.nodup_cons] at h
      by_cases hk : pk = k
      · subst hk
        have he : dictInsert ((pk, pv) :: t) pk v = (pk, v) :: t := by simp [dictInsert]
        rw [he]
        simp only [List.map_cons, List.nodup_cons]
        exact h
      · simp only [dictInsert, hk, if_false, List.map_cons, List.nodup_cons]
        refine ⟨?_, ih h.2⟩
        rw [mem_keys_dictInsert]
        rintro (rfl | hmem)
        · exact hk rfl
        · exact h.1 hmem

/-- The invariant of the dedup dict: keys are distinct, and every entry is
keyed by the `record_key` of its value. -/
def KeyedDict (d : List (String × Json)) : Prop :=
  (d.map Prod.fst).Nodup ∧ ∀ p ∈ d, record_key p.2 = p.1

lemma keyedDict_nil : KeyedDict [] := by simp [KeyedDict]

lemma keyed_values_dictInsert (d : List (String × Json)) (v : Json) :
    (∀ p ∈ d, record_key p.2 = p.1) →
    ∀ p ∈ dictInsert d (record_key v) v, record_key p.2 = p.1 := by
  induction d with
  | nil =>
    intro _ p hp
    simp [dictInsert] at hp
    simp [hp]
  | cons q t ih =>
    intro h2 p hp
    cases q with
    | mk pk pv =>
      by_cases hk : pk = record_key v
      · subst hk
        simp only [dictInsert, if_pos rfl] at hp
        rcases List.mem_cons.mp hp with rfl | hp2
        · rfl
        · exact h2 p (List.mem_cons_of_mem _ hp2)
      · simp only [dictInsert, hk, if_false] at hp
        rcases List.mem_cons.mp hp with rfl | hp2
        · exact h2 _ (List.mem_cons_self _ _)
        · exact ih (fun r hr => h2 r (List.mem_cons_of_mem _ hr)) _ hp2

lemma keyedDict_dictInsert (d : List (String × Json)) (v : Json)
    (h : KeyedDict d) : KeyedDict (dictInsert d (record_key v) v) :=
  ⟨keys_nodup_dictInsert d _ v h.1, keyed_values_dictInsert d v h.2⟩

lemma keyedDict_unique_by_id_from (ns : List Json) : KeyedDict (unique_by_id_from ns) := by
  rw [unique_by_id_from]
  suffices h : ∀ d, KeyedDict d →
      KeyedDict (ns.foldl (fun d nr => dictInsert d (record_key nr) nr) d) from
    h [] keyedDict_nil
  induction ns with
  | nil => intro d hd; simpa using hd
  | cons n t ih =>
    intro d hd
    simpa using ih _ (keyedDict_dictInsert d n hd)

lemma keyedDict_merge_search (d : List (String × Json)) (MAX : Int) (srs : List Json)
    (d2 : List (String × Json)) (h : merge_search d MAX srs = some d2)
    (hd : KeyedDict d) : KeyedDict d2 := by
  induction srs generalizing d with
  | nil =>
    simp [merge_search] at h
    exact h ▸ hd
  | cons r rs ih =>
    rw [merge_search] at h
    cases hn : normalize_result_record r with
    | none => rw [hn] at h; exact absurd h (by simp)
    | some nr =>
      rw [hn] at h
      simp only at h
      by_cases hb : MAX ≤ ((dictInsert d (record_key nr) nr).length : Int)
      · rw [if_pos hb] at h
        cases h
        exact keyedDict_dictInsert d nr hd
      · rw [if_neg hb] at h
        exact ih _ h (keyedDict_dictInsert d nr hd)

lemma merge_search_keys (d : List (String × Json)) (MAX : Int) (srs : List Json)
    (d2 : List (String × Json)) (h : merge_search d MAX srs = some d2) :
    ∀ k ∈ d2.map Prod.fst, k ∈ d.map Prod.fst ∨
      ∃ r ∈ srs, ∃ nr, normalize_result_record r = some nr ∧ k = record_key nr := by
  induction srs generalizing d with
  | nil =>
    simp [merge_search] at h
    subst h
    exact fun k hk => Or.inl hk
  | cons r rs ih =>
    rw [merge_search] at h
    cases hn : normalize_result_record r with
    | none => rw [hn] at h; exact absurd h (by simp)
    | some nr =>
      rw [hn] at h
      simp only at h
      intro k hk
      by_cases hb : MAX ≤ ((dictInsert d (record_key nr) nr).length : Int)
      · rw [if_pos hb] at h
        cases h
        rcases (mem_keys_dictInsert d (record_key nr) k nr).mp hk with rfl | hmem
        · exact Or.inr ⟨r, by simp, nr, hn, rfl⟩
        · exact Or.inl hmem
      · rw [if_neg hb] at h
        rcases ih _ h k hk with hmem | ⟨r', hr', nr', hn', rfl⟩
        · rcases (mem_keys_dictInsert d (record_key nr) k nr).mp hmem with rfl | hmem2
          · exact Or.inr ⟨r, by simp, nr, hn, rfl⟩
          · exact Or.inl hmem2
        · exact Or.inr ⟨r', by simp [hr'], nr', hn', rfl⟩

lemma keyedDict_match_collection (data : Json) (d : List (String × Json)) (c : Nat)
    (h : match_collection data = some (d, c)) : KeyedDict d := by
  rw [match_collection] at h
  cases h1 : pyList? (match_results_json data) with
  | none => rw [h1] at h; exact absurd h (by simp)
  | some rl =>
    rw [h1] at h
    simp only at h
    cases h2 : rl.mapM normalize_result_record with
    | none => rw [h2] at h; simp at h
    | some ns =>
      rw [h2] at h
      simp only [Option.some.injEq, Prod.mk.injEq] at h
      rw [← h.1]
      exact keyedDict_unique_by_id_from ns

lemma screen_person_ok_shape (env : Env) (up : Upstream) (name : String)
    (resp : ScreenResponse) (calls : List Call)
    (h : screen_person env up name = (.ok resp, calls)) :
    ∃ d rawCount used, resp = screen_response name d (maxResults env) rawCount used ∧
      KeyedDict d := by
  rw [screen_person] at h
  split at h
  · simp at h
  · split at h
    · simp at h
    · split at h
      · simp at h
      · split at h
        · simp at h
        · rename_i data hdata
          cases hmc : match_collection data with
          | none => rw [hmc] at h; simp at h
          | some dc =>
            rw [hmc] at h
            obtain ⟨d, rawCount⟩ := dc
            have hkd := keyedDict_match_collection data d rawCount hmc
            simp only at h
            split at h
            · split at h
              · simp only [Prod.mk.injEq, Except.ok.injEq] at h
                exact ⟨d, rawCount, true, h.1.symm, hkd⟩
              · split at h
                · split at h
                  · simp at h
                  · rename_i sdata hsdata
                    cases hpl : pyList? (search_results_json sdata) with
                    | none => rw [hpl] at h; simp at h
                    | some srs =>
                      rw [hpl] at h
                      simp only at h
                      cases hms : merge_search d (maxResults env) srs with
                      | none => rw [hms] at h; simp at h
                      | some d2 =>
                        rw [hms] at h
                        simp only [Prod.mk.injEq, Except.ok.injEq] at h
                        exact ⟨d2, rawCount + srs.length, true, h.1.symm,
                          keyedDict_merge_search d _ srs d2 hms hkd⟩
                · simp only [Prod.mk.injEq, Except.ok.injEq] at h
                  exact ⟨d, rawCount, true, h.1.symm, hkd⟩
            · simp only [Prod.mk.injEq, Except.ok.injEq] at h
              exact ⟨d, rawCount, false, h.1.symm, hkd⟩

lemma pySliceTo_eq_take (n : Int) (l : List α) : ∃ m, pySliceTo n l = l.take m := by
  rw [pySliceTo]
  by_cases h : 0 ≤ n
  · exact ⟨n.toNat, by rw [if_pos h]⟩
  · exact ⟨l.length - (-n).toNat, by rw [if_neg h]⟩

lemma length_pySliceTo_le (n : Int) (l : List α) (hn : 0 ≤ n) :
    ((pySliceTo n l).length : Int) ≤ n := by
  rw [pySliceTo, if_pos hn]
  have := List.length_take_le n.toNat l
  omega

/-- **C10.** In every `POST /screen` response, the `status` field is `"hit"`
if and only if some entry of the final matches list has a score strictly
greater than 0.7, and `"clean"` otherwise (whenever no entry scores above
0.7, including the nonempty no-hit case); in particular an empty matches
list always yields status `"clean"`. -/
theorem c10_screen_status (env : Env) (up : Upstream) (name : String)
    (resp : ScreenResponse) (calls : List Call)
    (h : screen_person env up name = (.ok resp, calls)) :
    (resp.status = "hit" ↔ ∃ m ∈ resp.matches', hit_score m = true) ∧
    ((¬∃ m ∈ resp.matches', hit_score m = true) → resp.status = "clean") ∧
    (resp.matches' = [] → resp.status = "clean") := by
  obtain ⟨d, rawCount, used, rfl, -⟩ := screen_person_ok_shape env up name resp calls h
  simp only [screen_response]
  by_cases ha : (pySliceTo (maxResults env) (d.map Prod.snd)).any hit_score
  · rw [if_pos ha]
    simp only [List.any_eq_true] at ha
    refine ⟨by simp [ha], ?_, ?_⟩
    · intro hno
      exact absurd ha hno
    · intro he
      rw [he] at ha
      simp at ha
  · rw [if_neg ha]
    refine ⟨?_, fun _ => rfl, fun _ => rfl⟩
    constructor
    · intro hc
      exact absurd hc (by simp)
    · intro hex
      rw [← List.any_eq_true] at hex
      exact absurd hex ha

/-- **C9, amended.** In every `POST /screen` response, the matches list
contains at most `requested_max_results` entries whenever the configured
maximum is nonnegative (it is 50 unless `OPENSANCTIONS_MAX_RESULTS` is set
to a negative integer, in which case the final slice drops entries from the
end instead of bounding the list), and no two entries share the same
deduplication key, where the key is `raw.id` when present **and truthy**,
otherwise the name and score pair — regardless of how many raw results the
upstream endpoints returned. -/
theorem c9_screen_dedup (env : Env) (up : Upstream) (name : String)
    (resp : ScreenResponse) (calls : List Call)
    (h : screen_person env up name = (.ok resp, calls)) :
    resp.requested_max_results = maxResults env ∧
    (0 ≤ maxResults env → (resp.matches'.length : Int) ≤ maxResults env) ∧
    (resp.matches'.map record_key).Nodup := by
  obtain ⟨d, rawCount, used, rfl, hkd⟩ := screen_person_ok_shape env up name resp calls h
  refine ⟨rfl, ?_, ?_⟩
  · intro hn
    exact length_pySliceTo_le _ _ hn
  · simp only [screen_response]
    obtain ⟨m, hm⟩ := pySliceTo_eq_take (maxResults env) (d.map Prod.snd)
    have hmm2 : (d.map Prod.snd).map record_key = d.map Prod.fst := by
      rw [List.map_map]
      apply List.map_congr_left
      intro p hp
      exact hkd.2 p hp
    rw [hm, List.map_take, hmm2]
    exact (List.take_sublist m _).nodup hkd.1

/-- An environment with only the API key set (`MAX_RESULTS` defaults to 50). -/
def good_env : Env := fun k => if k = "OPENSANCTIONS_KEY" then some "sk" else none

def hit_rec : Json := .obj [("id", .str "e1"), ("caption", .str "Alice"), ("score", .num (9/10))]

def hit_nrec : Json := .obj [("name", .str "Alice"), ("score", .num (9/10)),
  ("datasets", .arr []), ("sources", .arr []),
  ("identity", .obj [("date_of_birth", .null), ("place_of_birth", .null),
    ("nationality", .null), ("aliases", .arr [])]),
  ("raw", .obj [("id", .str "e1"), ("caption", .str "Alice"), ("score", .num (9/10))])]

def hit_up : Upstream :=
  { match_exc := false,
    match_resp := ⟨200,
      some (.obj [("responses", .obj [("q1", .obj [("results", .arr [hit_rec])])])])⟩,
    search_exc := true,
    search_resp := ⟨200, some (.obj [("results", .arr [])])⟩ }

lemma hit_nrec_eval : normalize_result_record hit_rec = some hit_nrec := by
  simp [hit_rec, hit_nrec, normalize_result_record, normalize_result_record_obj,
    recursive_find, recursive_find_obj, recursive_find_list, key_matches, pyLower,
    pyOr, Json.truthy, dictGet, dictGetD, List.lookup, coerce_score, pyFloat?,
    massage_datasets, massage_aliases, sources_of, Json.isStr, Json.isList,
    Json.isNull, pyList?]

lemma hit_eval : screen_person good_env hit_up "x"
    = (.ok ⟨"hit", "x", [hit_nrec], 1, 50, true⟩, [.matchCall, .searchCall]) := by
  have h1 : maxResults good_env = 50 := by
    simp [maxResults, good_env, pyInt?, pyTrim, parseNat?, digitsVal]
  have h2 : match_collection (.obj [("responses", .obj [("q1",
      .obj [("results", .arr [hit_rec])])])]) = some ([("id::e1", hit_nrec)], 1) := by
    simp [match_collection, match_results_json, try_match_results, pyGetAttrD,
      dictGetD, dictGet, List.lookup, Json.isList, pyOr, Json.truthy, pyList?,
      List.mapM, List.mapM.loop, hit_nrec_eval, unique_by_id_from, dictInsert,
      record_key, field_of, field_ofD, pyStr, hit_nrec]
  rw [screen_person]
  simp [good_env, hit_up, h1, h2, screen_response, pySliceTo, hit_score, field_ofD,
    dictGetD, List.lookup, hit_nrec, pyStr]
  norm_num

set_option maxHeartbeats 1000000 in
/-- **C5.** `POST /screen` first calls the OpenSanctions `/match` endpoint,
and it calls the `/search` endpoint if and only if the number of unique
normalized match results is strictly less than the requested maximum
(`MAX_RESULTS`); the response field `used_search` is true exactly when the
search fallback was invoked, and search results are merged into the
deduplicated collection (every key of the merged dict comes from the match
phase or from a normalized search result). -/
theorem c5_screen_search (env : Env) (up : Upstream) (name : String) :
    ((screen_person env up name).2 = [] ∨ (screen_person env up name).2 = [.matchCall] ∨
      (screen_person env up name).2 = [.matchCall, .searchCall]) ∧
    ((screen_person env up name).2 = [.matchCall, .searchCall] ↔
      ((env "OPENSANCTIONS_KEY").getD "" ≠ "" ∧ up.match_exc = false ∧
        up.match_resp.status = 200 ∧
        ∃ data dc, up.match_resp.body = some data ∧ match_collection data = some dc ∧
          ((dc.1.length : Int) < maxResults env))) ∧
    (∀ resp, (screen_person env up name).1 = .ok resp →
      (resp.used_search = true ↔ Call.searchCall ∈ (screen_person env up name).2)) ∧
    (∀ d MAX srs d2, merge_search d MAX srs = some d2 →
      ∀ k ∈ d2.map Prod.fst, k ∈ d.map Prod.fst ∨
        ∃ r ∈ srs, ∃ nr, normalize_result_record r = some nr ∧ k = record_key nr) := by
  have hms := merge_search_keys
  rw [screen_person]
  repeat' split
  all_goals simp_all [screen_response]
  all_goals try exact hms
  all_goals split <;> simp_all
  all_goals try exact hms
  all_goals split <;> simp_all
  all_goals exact hms

def c5_up : Upstream :=
  ⟨false, ⟨200, some (.obj [("responses", .obj [("q1", .obj [("results", .arr [])])])])⟩,
    true, ⟨200, some .null⟩⟩

lemma c5_eval : screen_person good_env c5_up "x"
    = (.ok ⟨"clean", "x", [], 0, 50, true⟩, [.matchCall, .searchCall]) := by
  have h1 : maxResults good_env = 50 := by
    simp [maxResults, good_env, pyInt?, pyTrim, parseNat?, digitsVal]
  rw [screen_person]
  simp [good_env, c5_up, h1, match_collection, match_results_json, try_match_results,
    pyGetAttrD, dictGetD, dictGet, List.lookup, Json.isList, pyOr, Json.truthy, pyList?,
    List.mapM, List.mapM.loop, unique_by_id_from, screen_response, pySliceTo]

/-- **C5, witness.** A concrete request (one whose match phase returns no
results, so the fallback fires): the search call is made and `used_search`
is reported true. -/
theorem c5_screen_search_witness :
    ((⟨"clean", "x", [], 0, 50, true⟩ : ScreenResponse).used_search = true) ∧
    Call.searchCall ∈ (screen_person good_env c5_up "x").2 := by
  have h := (c5_screen_search good_env c5_up "x").2.2.1 ⟨"clean", "x", [], 0, 50, true⟩
    (by rw [c5_eval])
  exact ⟨rfl, h.mp rfl⟩

/-- The deduplication key exactly as claim C9 words it: `raw.id` whenever the
field is *present* (truthy or not), otherwise the name and score pair. -/
def claim_key (m : Json) : Json ⊕ (Json × Json) :=
  match (match field_of m "raw" with | .obj f => f.lookup "id" | _ => none) with
  | some idv => .inl idv
  | none => .inr (field_ofD m "name" (.str ""), field_ofD m "score" (.num 0))

def c9_recA : Json := .obj [("id", .str ""), ("caption", .str "A")]
def c9_recB : Json := .obj [("id", .str ""), ("caption", .str "B")]

def c9_nrecA : Json := .obj [("name", .str "A"), ("score", .num 0),
  ("datasets", .arr []), ("sources", .arr []),
  ("identity", .obj [("date_of_birth", .null), ("place_of_birth", .null),
    ("nationality", .null), ("aliases", .arr [])]),
  ("raw", .obj [("id", .str ""), ("caption", .str "A")])]

def c9_nrecB : Json := .obj [("name", .str "B"), ("score", .num 0),
  ("datasets", .arr []), ("sources", .arr []),
  ("identity", .obj [("date_of_birth", .null), ("place_of_birth", .null),
    ("nationality", .null), ("aliases", .arr [])]),
  ("raw", .obj [("id", .str ""), ("caption", .str "B")])]

def c9_up : Upstream :=
  ⟨false, ⟨200, some (.obj [("responses",
      .obj [("q1", .obj [("results", .arr [c9_recA, c9_recB])])])])⟩,
    true, ⟨200, some .null⟩⟩

lemma c9_nrecA_eval : normalize_result_record c9_recA = some c9_nrecA := by
  simp [c9_recA, c9_nrecA, normalize_result_record, normalize_result_record_obj,
    recursive_find, recursive_find_obj, recursive_find_list, key_matches, pyLower,
    pyOr, Json.truthy, dictGet, dictGetD, List.lookup, coerce_score, pyFloat?,
    massage_datasets, massage_aliases, sources_of, Json.isStr, Json.isList,
    Json.isNull, pyList?]

lemma c9_nrecB_eval : normalize_result_record c9_recB = some c9_nrecB := by
  simp [c9_recB, c9_nrecB, normalize_result_record, normalize_result_record_obj,
    recursive_find, recursive_find_obj, recursive_find_list, key_matches, pyLower,
    pyOr, Json.truthy, dictGet, dictGetD, List.lookup, coerce_score, pyFloat?,
    massage_datasets, massage_aliases, sources_of, Json.isStr, Json.isList,
    Json.isNull, pyList?]

lemma c9_eval : screen_person good_env c9_up "x"
    = (.ok ⟨"clean", "x", [c9_nrecA, c9_nrecB], 2, 50, true⟩,
      [.matchCall, .searchCall]) := by
  have h1 : maxResults good_env = 50 := by
    simp [maxResults, good_env, pyInt?, pyTrim, parseNat?, digitsVal]
  have hts : toString (0 : Rat) = "0" := by rfl
  have h2 : match_collection (.obj [("responses", .obj [("q1",
      .obj [("results", .arr [c9_recA, c9_recB])])])])
      = some ([("name::A_score::0", c9_nrecA), ("name::B_score::0", c9_nrecB)], 2) := by
    simp [match_collection, match_results_json, try_match_results, pyGetAttrD,
      dictGetD, dictGet, List.lookup, Json.isList, pyOr, Json.truthy, pyList?,
      List.mapM, List.mapM.loop, c9_nrecA_eval, c9_nrecB_eval, unique_by_id_from,
      dictInsert, record_key, field_of, field_ofD, pyStr, hts, c9_nrecA, c9_nrecB]
  rw [screen_person]
  simp [good_env, c9_up, h1, h2, screen_response, pySliceTo, hit_score, field_ofD,
    dictGetD, List.lookup, c9_nrecA, c9_nrecB, pyStr]
  norm_num

/-- **C9, counterexample.** Two upstream match results that both carry the
present-but-empty id `""` and different captions: `record_key` falls back to
the name/score pair (the code tests `if raw_id:`, not presence), so both
survive deduplication, and the final matches list contains two distinct
entries sharing the claim's deduplication key `raw.id = ""`. -/
theorem c9_screen_dedup_counterexample :
    (screen_person good_env c9_up "x").1
      = .ok ⟨"clean", "x", [c9_nrecA, c9_nrecB], 2, 50, true⟩ ∧
    claim_key c9_nrecA = claim_key c9_nrecB ∧
    c9_nrecA ≠ c9_nrecB := by
  refine ⟨by rw [c9_eval], rfl, ?_⟩
  simp [c9_nrecA, c9_nrecB]

lemma screen_person_500_iff (env : Env) (up : Upstream) (name : String) :
    screen_person env up name = (.error (.httpException 500), [])
      ↔ (env "OPENSANCTIONS_KEY").getD "" = "" := by
  constructor
  · intro h
    by_contra hk
    rw [screen_person, if_neg hk] at h
    repeat' split at h
    all_goals simp_all
    all_goals try (split at h <;> try simp_all)
    all_goals try (split at h <;> try simp_all)
  · intro h
    rw [screen_person, if_pos h]

/-- **C9, amended, witness.** The amended claim instantiated on a concrete
request returning one match: the bound 50 and the key distinctness hold. -/
theorem c9_screen_dedup_witness :
    ((⟨"hit", "x", [hit_nrec], 1, 50, true⟩ : ScreenResponse).matches'.length : Int) ≤ 50 ∧
    ((⟨"hit", "x", [hit_nrec], 1, 50, true⟩ : ScreenResponse).matches'.map record_key).Nodup := by
  have h50 : maxResults good_env = 50 := by
    simp [maxResults, good_env, pyInt?, pyTrim, parseNat?, digitsVal]
  have h := c9_screen_dedup good_env hit_up "x" ⟨"hit", "x", [hit_nrec], 1, 50, true⟩
    [.matchCall, .searchCall] hit_eval
  refine ⟨?_, h.2.2⟩
  have hb := h.2.1 (by rw [h50]; norm_num)
  rwa [h50] at hb

/-- **C10, witness.** A concrete request whose single match scores 0.9:
the response status is `"hit"`, and the hit is exhibited. -/
theorem c10_screen_status_witness :
    (⟨"hit", "x", [hit_nrec], 1, 50, true⟩ : ScreenResponse).status = "hit" ∧
    ∃ m ∈ (⟨"hit", "x", [hit_nrec], 1, 50, true⟩ : ScreenResponse).matches',
      hit_score m = true := by
  have h := c10_screen_status good_env hit_up "x" ⟨"hit", "x", [hit_nrec], 1, 50, true⟩
    [.matchCall, .searchCall] hit_eval
  exact ⟨rfl, h.1.mp rfl⟩

/-! ## The route table (src/main.py lines 107, 111; src/heatmap.py lines 14, 375-377) -/

/-- Every route handler registered in the two source files: method, path and
handler name.  `home` and `screen_person` are decorated on the FastAPI `app`;
`get_heatmap` is decorated on the `APIRouter` whose path stem is
`"/heatmap"`, for both `""` and `"/"` (the router object is defined in
src/heatmap.py; no other handler exists in the repository's source). -/
def app_routes : List (String × String × String) :=
  [("GET", "/", "home"),
   ("POST", "/screen", "screen_person"),
   ("GET", "/heatmap", "get_heatmap"),
   ("GET", "/heatmap/", "get_heatmap")]

/-- A name is exposed as an endpoint when some registered route path is that
name (with the leading slash, optionally with the router's trailing slash). -/
def hasEndpoint (name : String) : Bool :=
  app_routes.any (fun r => r.2.1 = "/" ++ name || r.2.1 = "/" ++ name ++ "/")

/-- **C2, counterexample.** The application registers handlers for `screen`
and `heatmap`, but no route handler named or pathed `batch` exists anywhere
in the source, so the claim that all three endpoints have a handler is false
as stated. -/
theorem c2_endpoints_counterexample :
    (hasEndpoint "screen" && hasEndpoint "batch" && hasEndpoint "heatmap") = false ∧
    app_routes.all (fun r => !(r.2.2 = "batch")) = true := by
  exact ⟨by decide, by decide⟩

/-- **C2, amended.** The service exposes simplified `screen` and `heatmap`
endpoints (a registered route handler exists for each), but no `batch` route
handler exists in this iteration of the service. -/
theorem c2_endpoints_amended :
    hasEndpoint "screen" = true ∧ hasEndpoint "heatmap" = true ∧
    app_routes.all (fun r => !(r.2.1 = "/batch" || r.2.1 = "/batch/")) = true := by
  exact ⟨by decide, by decide, by decide⟩

/-! ## The heatmap module (src/heatmap.py) -/

/-- Embedding of `ensure_list(v)` (src/heatmap.py lines 55-60). -/
def ensure_list : Json → List Json
  | .null => []
  | .arr xs => xs
  | v => [v]

/-- The token chain of `get_delivery_token` (src/heatmap.py lines 37-41):
the first truthy value of the three environment variables, `""` when none
is set to a non-empty string (`or` treats unset and empty alike). -/
def heatmap_token (env : Env) : String :=
  let a := (env "OPENSANCTIONS_DELIVERY_TOKEN").getD ""
  let b := (env "OPENSANCTIONS_BULK_TOKEN").getD ""
  let c := (env "OPEN_SANCTIONS_DELIVERY_TOKEN").getD ""
  if a ≠ "" then a else if b ≠ "" then b else c

/-- Embedding of `get_delivery_token()` (src/heatmap.py lines 32-50):
`HTTPException(500)` when the chain is falsy, else the stripped token. -/
def get_delivery_token (env : Env) : Except Nat String :=
  if heatmap_token env = "" then .error 500 else .ok (pyTrim (heatmap_token env))

/-- `CACHE_TTL_SECONDS` (src/heatmap.py line 22). -/
def CACHE_TTL_SECONDS : Int := 21600

/-- Embedding of `_get_cache_ttl()` (src/heatmap.py lines 25-29). -/
def get_cache_ttl (env : Env) : Int :=
  (pyInt? ((env "HEATMAP_CACHE_TTL").getD "21600")).getD CACHE_TTL_SECONDS

/-- `_COUNTRY_MAP` (src/heatmap.py lines 64-99). -/
def COUNTRY_MAP : List (String × String) :=
  [("US", "United States"), ("USA", "United States"),
   ("UNITED STATES", "United States"), ("UNITED STATES OF AMERICA", "United States"),
   ("RU", "Russia"), ("RUS", "Russia"), ("RUSSIAN FEDERATION", "Russia"),
   ("IR", "Iran"), ("IRN", "Iran"), ("IRAN, ISLAMIC REPUBLIC OF", "Iran"),
   ("GB", "United Kingdom"), ("UK", "United Kingdom"), ("GBR", "United Kingdom"),
   ("UNITED KINGDOM", "United Kingdom"),
   ("CN", "China"), ("CHN", "China"), ("DE", "Germany"), ("DEU", "Germany"),
   ("FR", "France"), ("FRA", "France"), ("CA", "Canada"), ("CAN", "Canada"),
   ("AU", "Australia"), ("AUS", "Australia"), ("UA", "Ukraine"), ("UKR", "Ukraine"),
   ("BY", "Belarus"), ("BLR", "Belarus"), ("SY", "Syria"), ("SYR", "Syria"),
   ("KP", "North Korea"), ("PRK", "North Korea"),
   ("VE", "Venezuela"), ("VEN", "Venezuela")]

/-- Python `s.upper()` (ASCII), over the character list. -/
def pyUpper (s : String) : String :=
  String.mk (s.data.map Char.toUpper)

/-- Python `s.isalpha()` (ASCII letters; false on the empty string). -/
def pyIsAlpha (s : String) : Bool :=
  !s.data.isEmpty && s.data.all Char.isAlpha

/-- `s.replace("|", ",").replace(";", ",")` as a character map (both
replacements are single characters). -/
def commaNormalize (cs : List Char) : List Char :=
  cs.map (fun c => if c = '|' || c = ';' then ',' else c)

/-- Python `split(",")` over the character list (`"".split(",") = [""]`). -/
def splitOnComma : List Char → List (List Char)
  | [] => [[]]
  | c :: rest =>
    let r := splitOnComma rest
    if c = ',' then [] :: r
    else
      match r with
      | [] => [[c]]
      | h :: t => (c :: h) :: t

/-- `[p.strip() for p in s.replace("|", ",").replace(";", ",").split(",")
if p.strip()]` (src/heatmap.py line 116). -/
def parts_of (s : String) : List String :=
  ((splitOnComma (commaNormalize s.data)).map (fun p => pyTrim (String.mk p))).filter
    (fun p => p ≠ "")

/-- The non-splitting tail of `normalize_country`'s loop body (src/heatmap.py
lines 122-135): map lookup, ISO-like 2-3 letter codes, else the label with a
parenthesised tail removed. -/
def normalize_country_single (s : String) : List String :=
  let u := pyUpper s
  match COUNTRY_MAP.lookup u with
  | some label => [label]
  | none =>
    if (u.data.length = 2 || u.data.length = 3) && pyIsAlpha u then [u]
    else
      let cleaned :=
        if s.data.contains '(' then pyTrim (String.mk (s.data.takeWhile (fun c => c ≠ '(')))
        else s
      [cleaned]

/-- Embedding of `normalize_country(raw)` (src/heatmap.py lines 102-136),
with an explicit recursion budget: the recursive calls are only ever made on
the parts of a comma/pipe/semicolon split, which contain no separator, so no
call chain is deeper than two and any budget of at least 2 computes the
Python function. -/
def normalize_country_fuel : Nat → Json → List String
  | 0, _ => []
  | fuel + 1, raw =>
    (ensure_list raw).flatMap (fun v =>
      if v.truthy = false then []
      else
        let s := pyTrim (pyStr v)
        if s = "" then []
        else
          let parts := parts_of s
          if 1 < parts.length then
            parts.flatMap (fun p => normalize_country_fuel fuel (.str p))
          else normalize_country_single s)

/-- `normalize_country(raw)` at the sufficient budget. -/
def normalize_country (raw : Json) : List String :=
  normalize_country_fuel 2 raw

/-- The dedup loop of `extract_countries_from_entity` (src/heatmap.py lines
158-161): keep the first occurrence of each truthy label, in order. -/
def pyUniqTruthy (l : List String) : List String :=
  l.foldl (fun acc c => if c ≠ "" && !acc.contains c then acc ++ [c] else acc) []

/-- Python `sub in s` on strings, over character lists. -/
def containsSub (needle : List Char) : List Char → Bool
  | [] => needle.isEmpty
  | c :: t => needle.isPrefixOf (c :: t) || containsSub needle t

/-- Whether a property key triggers country extraction (src/heatmap.py line
149): `"country" in lk or "national" in lk or "citizen" in lk` on the
lowercased key. -/
def country_like_key (k : String) : Bool :=
  let lk := (pyLower k).data
  containsSub "country".data lk || containsSub "national".data lk
    || containsSub "citizen".data lk

/-- Embedding of `extract_countries_from_entity(entity)` (src/heatmap.py
lines 139-162); `none` models the `AttributeError` of `.items()` when the
`properties` field is truthy but not a dict (caught by the per-dataset
`except Exception`). -/
def extract_countries_from_entity (entity : List (String × Json)) :
    Option (List String) :=
  match pyOr (dictGetD entity "properties" (.obj [])) (.obj []) with
  | .obj props =>
    let found :=
      (props.flatMap (fun p =>
        if country_like_key p.1 then normalize_country p.2 else [])) ++
      (["birthPlace", "placeOfBirth", "address"].flatMap (fun hk =>
        match props.lookup hk with
        | some v => normalize_country v
        | none => []))
    some (pyUniqTruthy found)
  | _ => none

mutual
/-- A structural Python `==` on JSON values, used by the dedup of dataset
names (Python's numeric cross-type equalities such as `True == 1` are not
modelled; dataset names are strings in practice). -/
def jsonBEq (a b : Json) : Bool :=
  match a, b with
  | .null, .null => true
  | .bool x, .bool y => x == y
  | .num x, .num y => x == y
  | .str x, .str y => x == y
  | .arr xs, .arr ys => jsonBEqList xs ys
  | .obj xs, .obj ys => jsonBEqFields xs ys
  | _, _ => false

/-- Elementwise `jsonBEq` on arrays. -/
def jsonBEqList (xs ys : List Json) : Bool :=
  match xs, ys with
  | [], [] => true
  | x :: xs, y :: ys => jsonBEq x y && jsonBEqList xs ys
  | _, _ => false

/-- Fieldwise `jsonBEq` on objects. -/
def jsonBEqFields (xs ys : List (String × Json)) : Bool :=
  match xs, ys with
  | [], [] => true
  | (k, x) :: xs, (l, y) :: ys => k == l && jsonBEq x y && jsonBEqFields xs ys
  | _, _ => false
end

/-- The final dedup of `iter_dataset_names` (src/heatmap.py lines 209-214):
drop falsy names and repeats, keep first occurrences in order. -/
def dedupTruthyJson (l : List Json) : List Json :=
  (l.foldl (fun acc n =>
    if n.truthy = false || acc.any (fun m => jsonBEq m n) then acc else acc ++ [n]) [])

/-- The pure parsing part of `iter_dataset_names` (src/heatmap.py lines
189-214), applied to the decoded index JSON: a `datasets` dict contributes
its keys, a `datasets` list the `name` fields of its dict elements, a dict
without a usable `datasets` entry its non-underscore top-level keys, and a
top-level list the stringified `name` fields of its dict elements. -/
def iter_dataset_names (data : Json) : List Json :=
  let names : List Json :=
    match data with
    | .obj kvs =>
      match kvs.lookup "datasets" with
      | some (.obj ds) => ds.map (fun p => Json.str p.1)
      | some (.arr ds) =>
        ds.filterMap (fun d => match d with | .obj f => f.lookup "name" | _ => none)
      | _ =>
        (kvs.map Prod.fst).filterMap (fun k =>
          if k ≠ "" && !(k.data.headD ' ' == '_') then some (Json.str k) else none)
    | .arr items =>
      items.filterMap (fun it =>
        match it with
        | .obj f => (f.lookup "name").map (fun n => Json.str (pyStr n))
        | _ => none)
    | _ => []
  dedupTruthyJson names

/-- One dataset's debug attempt record (src/heatmap.py lines 290-296); the
`url` is recorded schematically (no claim inspects it). -/
structure DsAttempt where
  dataset : String
  url : Option String
  entities_tried : Nat
  entities_with_country : Nat
  error : Option String

/-- The aggregation state `build_heatmap_full` mutates: the `totals` counter,
the per-country dataset breakdown, the sample rows and `processed_global`. -/
structure AggState where
  totals : List (String × Nat)
  breakdown : List (String × List (String × Nat))
  samples : List Json
  processed : Nat

/-- `Counter[k] += 1`: increment in place, append unseen keys. -/
def counterAdd (c : List (String × Nat)) (k : String) : List (String × Nat) :=
  match c with
  | [] => [(k, 1)]
  | (k', n) :: t => if k' = k then (k', n + 1) :: t else (k', n) :: counterAdd t k

/-- Value of a counter at a key. -/
def counterGet (c : List (String × Nat)) (k : String) : Nat :=
  (c.lookup k).getD 0

/-- `datasets_breakdown[c][ds] += 1` on the `defaultdict(Counter)`
(inner keys rendered with `str`; no claim inspects the breakdown). -/
def breakdownAdd (b : List (String × List (String × Nat))) (c ds : String) :
    List (String × List (String × Nat)) :=
  match b with
  | [] => [(c, [(ds, 1)])]
  | (c', m) :: t => if c' = c then (c', counterAdd m ds) :: t else (c', m) :: breakdownAdd t c ds

/-- The sample row appended for a counted entity (src/heatmap.py lines
324-335). -/
def sample_of (ent : List (String × Json)) (countries : List String)
    (ds_list : List Json) : Json :=
  let props := pyOr (dictGet ent "properties") (.obj [])
  let name_vals := ensure_list (field_of props "name")
  .obj [("id", dictGet ent "id"),
    ("name", name_vals.headD .null),
    ("countries", .arr (countries.map Json.str)),
    ("datasets", .arr ds_list)]

/-- The entity loop of `build_heatmap_full` for one dataset (src/heatmap.py
lines 306-337): returns the updated state, `entities_tried`,
`entities_with_country`, and whether the loop died on an exception (which
the per-dataset `except` catches, keeping the state mutated so far). -/
def ds_loop (cap : Int) :
    AggState → Nat → Nat → List (List (String × Json)) → AggState × Nat × Nat × Bool
  | st, tried, withc, [] => (st, tried, withc, false)
  | st, tried, withc, ent :: rest =>
    let tried' := tried + 1
    if cap ≤ (st.processed : Int) then (st, tried', withc, false)
    else
      match extract_countries_from_entity ent with
      | none => (st, tried', withc, true)
      | some countries =>
        if countries.isEmpty then ds_loop cap st tried' withc rest
        else
          let ds_list := ensure_list (dictGet ent "datasets")
          let totals' := countries.foldl counterAdd st.totals
          let bd' := countries.foldl (fun b c =>
            ds_list.foldl
              (fun b2 ds => if ds.truthy then breakdownAdd b2 c (pyStr ds) else b2) b)
            st.breakdown
          let samples' :=
            if st.samples.length < 80 then st.samples ++ [sample_of ent countries ds_list]
            else st.samples
          ds_loop cap ⟨totals', bd', samples', st.processed + 1⟩ tried' (withc + 1) rest

/-- The upstream world of the heatmap module: the outcome of the dataset
index fetch (`error` covers a request failure, a non-200 status and invalid
JSON, each of which `iter_dataset_names` turns into `HTTPException(502)`),
and for each dataset name the outcome of `choose_entities_url` plus
`stream_entities`: `none` when no entity export answers the HEAD probes,
else the dict objects the stream yields. -/
structure HWorld where
  index : Except Unit Json
  feeds : List (String × Option (List (List (String × Json))))

/-- The feed of one (stringified) dataset name; an unknown name has no
export. -/
def feed_of (w : HWorld) (n : Json) : Option (List (List (String × Json))) :=
  (w.feeds.lookup (pyStr n)).getD none

/-- The dataset loop of `build_heatmap_full` (src/heatmap.py lines 288-351):
threads the state through every dataset, records an attempt row per dataset,
and stops when the processed count has reached the cap (a dataset aborted by
an exception skips that check, exactly as the `continue` does). -/
def build_loop (w : HWorld) (cap : Int) :
    AggState → List DsAttempt → Nat → List Json → AggState × List DsAttempt × Nat
  | st, attempts, count, [] => (st, attempts, count)
  | st, attempts, count, n :: rest =>
    let count' := count + 1
    match feed_of w n with
    | none =>
      build_loop w cap st
        (attempts ++ [⟨pyStr n, none, 0, 0, some "No entity export found"⟩]) count' rest
    | some ents =>
      match ds_loop cap st 0 0 ents with
      | (st', tried, withc, crashed) =>
        let att : DsAttempt := ⟨pyStr n, some (pyStr n), tried, withc,
          if crashed then some "Exception while processing" else none⟩
        if crashed then build_loop w cap st' (attempts ++ [att]) count' rest
        else if cap ≤ (st'.processed : Int) then (st', attempts ++ [att], count')
        else build_loop w cap st' (attempts ++ [att]) count' rest

/-- The JSON object `build_heatmap_full` returns (src/heatmap.py lines
353-372). -/
structure HeatmapData where
  totals : List (String × Nat)
  datasets : List (String × List (String × Nat))
  samples : List Json
  meta_aggregated_countries : Nat
  meta_total_entities_with_country : Nat
  meta_global_entity_cap : Int
  meta_datasets_seen : Nat
  meta_cached_at : Int
  debug_attempts : List DsAttempt

/-- Embedding of `build_heatmap_full(max_entities_global)` (src/heatmap.py
lines 270-372) over the environment, the upstream world and the wall clock;
the boolean records whether the index fetch was reached (every upstream
call of the build happens at or after it). -/
def build_heatmap_full (env : Env) (w : HWorld) (cap : Int) (now : Rat) :
    Except Nat HeatmapData × Bool :=
  match get_delivery_token env with
  | .error e => (.error e, false)
  | .ok _ =>
    match w.index with
    | .error _ => (.error 502, true)
    | .ok data =>
      let names := iter_dataset_names data
      match build_loop w cap ⟨[], [], [], 0⟩ [] 0 names with
      | (st, attempts, count) =>
        (.ok { totals := st.totals
               datasets := st.breakdown
               samples := st.samples
               meta_aggregated_countries := st.totals.length
               meta_total_entities_with_country := (st.totals.map Prod.snd).sum
               meta_global_entity_cap := cap
               meta_datasets_seen := count
               meta_cached_at := ⌊now⌋
               debug_attempts := attempts }, true)

/-- The module-level `_HEATMAP_CACHE` (src/heatmap.py lines 17-20). -/
structure CacheState where
  data : Option HeatmapData
  updated_at : Rat

/-- Embedding of the `GET /heatmap` handler `get_heatmap(force, cap)`
(src/heatmap.py lines 375-399): returns the outcome, the cache state after
the request, and whether any upstream HTTP call was made (the build, when it
runs, probes upstream exactly when the delivery token is configured). -/
def get_heatmap (env : Env) (w : HWorld) (st : CacheState) (now : Rat)
    (force : Bool) (cap : Int) : Except Nat HeatmapData × CacheState × Bool :=
  let ttl := get_cache_ttl env
  if force = false ∧ st.data.isSome ∧ now - st.updated_at < (ttl : Rat) then
    ((st.data.map Except.ok).getD (.error 500), st, false)
  else
    let cap_value := if cap ≠ 0 then cap else 1000000
    match build_heatmap_full env w cap_value now with
    | (.error e, made) => (.error e, st, made)
    | (.ok data, made) => (.ok data, ⟨some data, now⟩, made)


lemma counterGet_counterAdd (t : List (String × Nat)) (k c : String) :
    counterGet (counterAdd t k) c = counterGet t c + if c = k then 1 else 0 := by
  induction t with
  | nil =>
    by_cases h : c = k
    · subst h
      simp [counterAdd, counterGet, List.lookup]
    · have hb : (c == k) = false := by simp [h]
      simp [counterAdd, counterGet, List.lookup, hb, h]
  | cons p t ih =>
    obtain ⟨k', n⟩ := p
    by_cases hk : k' = k
    · subst hk
      by_cases hc : c = k'
      · subst hc
        simp [counterAdd, counterGet, List.lookup]
      · have hb : (c == k') = false := by simp [hc]
        simp [counterAdd, counterGet, List.lookup, hb, hc]
    · by_cases hc : c = k'
      · subst hc
        simp [counterAdd, counterGet, List.lookup, hk]
      · have hb : (c == k') = false := by simp [hc]
        have ih' := ih
        simp only [counterGet] at ih'
        simp [counterAdd, counterGet, List.lookup, hk, hb, ih']

lemma counterGet_foldl_counterAdd (cs : List String) (t : List (String × Nat)) (c : String)
    (hnd : cs.Nodup) :
    counterGet (cs.foldl counterAdd t) c = counterGet t c + if c ∈ cs then 1 else 0 := by
  induction cs generalizing t with
  | nil => simp
  | cons c0 rest ih =>
    simp only [List.nodup_cons] at hnd
    rw [List.foldl_cons, ih _ hnd.2, counterGet_counterAdd]
    by_cases hc : c = c0
    · subst hc
      simp [hnd.1]
    · simp [hc]

lemma pyUniq_aux (l : List String) : ∀ acc : List String, acc.Nodup →
    (l.foldl (fun acc c => if c ≠ "" && !acc.contains c then acc ++ [c] else acc) acc).Nodup := by
  induction l with
  | nil => intro acc h; simpa using h
  | cons c rest ih =>
    intro acc h
    rw [List.foldl_cons]
    apply ih
    by_cases hc : (c ≠ "" && !acc.contains c) = true
    · rw [if_pos hc]
      simp only [Bool.and_eq_true, Bool.not_eq_true'] at hc
      have hmem : c ∉ acc := by simpa using hc.2
      simp [List.nodup_append, h, hmem]
    · rw [if_neg hc]
      exact h

lemma pyUniqTruthy_nodup (l : List String) : (pyUniqTruthy l).Nodup :=
  pyUniq_aux l [] (by simp)

lemma extract_countries_nodup (e : List (String × Json)) (cs : List String)
    (h : extract_countries_from_entity e = some cs) : cs.Nodup := by
  rw [extract_countries_from_entity] at h
  cases hp : pyOr (dictGetD e "properties" (.obj [])) (.obj []) with
  | obj props =>
    rw [hp] at h
    simp only [Option.some.injEq] at h
    rw [← h]
    exact pyUniqTruthy_nodup _
  | null => rw [hp] at h; simp at h
  | bool b => rw [hp] at h; simp at h
  | num q => rw [hp] at h; simp at h
  | str s => rw [hp] at h; simp at h
  | arr xs => rw [hp] at h; simp at h

/-- Whether a counted entity's (deduplicated) country list contains a label. -/
def countsEntity (c : String) (e : List (String × Json)) : Bool :=
  decide (c ∈ (extract_countries_from_entity e).getD [])

lemma ds_loop_processed_le (cap : Int) (ents : List (List (String × Json))) :
    ∀ st tried withc,
    (ds_loop cap st tried withc ents).1.processed ≤ max st.processed cap.toNat := by
  induction ents with
  | nil => intro st tried withc; simp [ds_loop]
  | cons ent rest ih =>
    intro st tried withc
    rw [ds_loop]
    by_cases hcap : cap ≤ (st.processed : Int)
    · rw [if_pos hcap]; simp
    · rw [if_neg hcap]
      cases hex : extract_countries_from_entity ent with
      | none => simp
      | some countries =>
        by_cases hemp : countries.isEmpty
        · simp only [hemp, if_true]
          exact ih st _ _
        · simp only [hemp, Bool.false_eq_true, if_false]
          have hb := ih ⟨countries.foldl counterAdd st.totals,
            countries.foldl (fun b c =>
              (ensure_list (dictGet ent "datasets")).foldl
                (fun b2 ds => if ds.truthy then breakdownAdd b2 c (pyStr ds) else b2) b)
              st.breakdown,
            if st.samples.length < 80 then
              st.samples ++ [sample_of ent countries (ensure_list (dictGet ent "datasets"))]
            else st.samples,
            st.processed + 1⟩ (tried + 1) (withc + 1)
          simp only at hb ⊢
          omega

lemma build_loop_processed_le (w : HWorld) (cap : Int) (names : List Json) :
    ∀ st attempts count,
    (build_loop w cap st attempts count names).1.processed ≤ max st.processed cap.toNat := by
  induction names with
  | nil => intro st attempts count; simp [build_loop]
  | cons n rest ih =>
    intro st attempts count
    rw [build_loop]
    cases hf : feed_of w n with
    | none =>
      simp only
      exact ih _ _ _
    | some ents =>
      simp only
      have hds1 := ds_loop_processed_le cap ents st 0 0
      rcases hds : ds_loop cap st 0 0 ents with ⟨st', tried, withc, crashed⟩
      rw [hds] at hds1
      simp only at hds1
      cases crashed with
      | true =>
        simp only [if_true]
        have := ih st' (attempts ++ [⟨pyStr n, some (pyStr n), tried, withc,
          some "Exception while processing"⟩]) (count + 1)
        omega
      | false =>
        simp only [Bool.false_eq_true, if_false]
        by_cases hcap : cap ≤ (st'.processed : Int)
        · rw [if_pos hcap]
          simp only
          omega
        · rw [if_neg hcap]
          have := ih st' (attempts ++ [⟨pyStr n, some (pyStr n), tried, withc, none⟩])
            (count + 1)
          omega

/-- The entities of one dataset that the entity loop counts, starting from a
given global processed count: entities are visited in stream order, the loop
stops once the cap is reached, entities without extractable countries are
skipped, and a crashing entity aborts the dataset (second component) while
keeping what was already counted. -/
def ds_counted (cap : Int) :
    Nat → List (List (String × Json)) → List (List (String × Json)) × Bool
  | _, [] => ([], false)
  | processed, ent :: rest =>
    if cap ≤ (processed : Int) then ([], false)
    else
      match extract_countries_from_entity ent with
      | none => ([], true)
      | some countries =>
        if countries.isEmpty then ds_counted cap processed rest
        else
          match ds_counted cap (processed + 1) rest with
          | (l, cr) => (ent :: l, cr)

/-- The entities counted across the dataset list, mirroring `build_loop`'s
control exactly: datasets without an export are skipped, a crashed dataset
keeps its partial contribution and moves on, and a completed dataset that
reached the cap ends the aggregation. -/
def heatmap_counted_from (w : HWorld) (cap : Int) :
    Nat → List Json → List (List (String × Json))
  | _, [] => []
  | processed, n :: rest =>
    match feed_of w n with
    | none => heatmap_counted_from w cap processed rest
    | some ents =>
      match ds_counted cap processed ents with
      | (l, crashed) =>
        let processed' := processed + l.length
        if crashed then l ++ heatmap_counted_from w cap processed' rest
        else if cap ≤ (processed' : Int) then l
        else l ++ heatmap_counted_from w cap processed' rest

/-- The list of entities a (successful) build actually processes and counts,
determined by the upstream world and the cap alone. -/
def heatmap_counted (w : HWorld) (cap : Int) : List (List (String × Json)) :=
  match w.index with
  | .error _ => []
  | .ok data => heatmap_counted_from w cap 0 (iter_dataset_names data)

lemma ds_loop_mirror (cap : Int) (ents : List (List (String × Json))) :
    ∀ st tried withc,
    (∀ c, counterGet (ds_loop cap st tried withc ents).1.totals c
      = counterGet st.totals c
        + ((ds_counted cap st.processed ents).1.countP (countsEntity c))) ∧
    ((ds_loop cap st tried withc ents).1.processed
      = st.processed + (ds_counted cap st.processed ents).1.length) ∧
    ((ds_loop cap st tried withc ents).2.2.2 = (ds_counted cap st.processed ents).2) := by
  induction ents with
  | nil =>
    intro st tried withc
    simp [ds_loop, ds_counted]
  | cons ent rest ih =>
    intro st tried withc
    rw [ds_loop, ds_counted]
    by_cases hcap : cap ≤ (st.processed : Int)
    · rw [if_pos hcap, if_pos hcap]
      simp
    · rw [if_neg hcap, if_neg hcap]
      cases hex : extract_countries_from_entity ent with
      | none => simp
      | some countries =>
        simp only
        by_cases hemp : countries.isEmpty
        · simp only [hemp, if_true]
          exact ih st (tried + 1) withc
        · simp only [hemp, Bool.false_eq_true, if_false]
          have hnd : countries.Nodup := extract_countries_nodup ent countries hex
          have hih := ih ⟨countries.foldl counterAdd st.totals,
            countries.foldl (fun b c =>
              (ensure_list (dictGet ent "datasets")).foldl
                (fun b2 ds => if ds.truthy then breakdownAdd b2 c (pyStr ds) else b2) b)
              st.breakdown,
            if st.samples.length < 80 then
              st.samples ++ [sample_of ent countries (ensure_list (dictGet ent "datasets"))]
            else st.samples,
            st.processed + 1⟩ (tried + 1) (withc + 1)
          simp only at hih
          rcases hmir : ds_counted cap (st.processed + 1) rest with ⟨l, cr⟩
          rw [hmir] at hih
          simp only at hih ⊢
          refine ⟨?_, ?_, hih.2.2⟩
          · intro c
            rw [hih.1 c, counterGet_foldl_counterAdd countries st.totals c hnd]
            have hce : countsEntity c ent = decide (c ∈ countries) := by
              simp [countsEntity, hex]
            by_cases hm : c ∈ countries
            all_goals simp [List.countP_cons, hce, hm]
            all_goals omega
          · rw [hih.2.1]
            simp
            omega

lemma ds_counted_entities_ok (cap : Int) (ents : List (List (String × Json))) :
    ∀ processed, ∀ e ∈ (ds_counted cap processed ents).1,
    ∃ cs, extract_countries_from_entity e = some cs ∧ cs ≠ [] := by
  induction ents with
  | nil => intro processed e he; simp [ds_counted] at he
  | cons ent rest ih =>
    intro processed e he
    rw [ds_counted] at he
    by_cases hcap : cap ≤ (processed : Int)
    · rw [if_pos hcap] at he
      simp at he
    · rw [if_neg hcap] at he
      cases hex : extract_countries_from_entity ent with
      | none => rw [hex] at he; simp at he
      | some countries =>
        rw [hex] at he
        simp only at he
        by_cases hemp : countries.isEmpty
        · rw [if_pos hemp] at he
          exact ih processed e he
        · simp only [hemp, Bool.false_eq_true, if_false] at he
          rcases hmir : ds_counted cap (processed + 1) rest with ⟨l, cr⟩
          rw [hmir] at he
          simp only [List.mem_cons] at he
          rcases he with rfl | he
          · exact ⟨countries, hex, by simpa using hemp⟩
          · have hih := ih (processed + 1) e
            rw [hmir] at hih
            exact hih he

lemma build_loop_mirror (w : HWorld) (cap : Int) (names : List Json) :
    ∀ st attempts count,
    (∀ c, counterGet (build_loop w cap st attempts count names).1.totals c
      = counterGet st.totals c
        + ((heatmap_counted_from w cap st.processed names).countP (countsEntity c))) ∧
    ((build_loop w cap st attempts count names).1.processed
      = st.processed + (heatmap_counted_from w cap st.processed names).length) := by
  induction names with
  | nil =>
    intro st attempts count
    simp [build_loop, heatmap_counted_from]
  | cons n rest ih =>
    intro st attempts count
    rw [build_loop, heatmap_counted_from]
    cases hf : feed_of w n with
    | none =>
      simp only
      exact ih st _ _
    | some ents =>
      simp only
      have hds := ds_loop_mirror cap ents st 0 0
      rcases hdl : ds_loop cap st 0 0 ents with ⟨st', tried, withc, crashed⟩
      rcases hmir : ds_counted cap st.processed ents with ⟨l, cr⟩
      rw [hdl, hmir] at hds
      simp only at hds
      have hcr : crashed = cr := hds.2.2
      have hproc : st'.processed = st.processed + l.length := hds.2.1
      subst hcr
      cases crashed with
      | true =>
        simp only [if_true]
        have hrest := ih st' (attempts ++ [⟨pyStr n, some (pyStr n), tried, withc,
          some "Exception while processing"⟩]) (count + 1)
        rw [hproc] at hrest
        constructor
        · intro c
          rw [hrest.1 c, hds.1 c]
          simp [List.countP_append]
          omega
        · rw [hrest.2]
          simp
          omega
      | false =>
        simp only [Bool.false_eq_true, if_false]
        rw [hproc]
        by_cases hcap : cap ≤ ((st.processed + l.length : Nat) : Int)
        · rw [if_pos (by exact_mod_cast hcap), if_pos (by exact_mod_cast hcap)]
          exact ⟨fun c => hds.1 c, hproc⟩
        · rw [if_neg (by exact_mod_cast hcap), if_neg (by exact_mod_cast hcap)]
          have hrest := ih st' (attempts ++ [⟨pyStr n, some (pyStr n), tried, withc, none⟩])
            (count + 1)
          rw [hproc] at hrest
          constructor
          · intro c
            rw [hrest.1 c, hds.1 c]
            simp [List.countP_append]
            omega
          · rw [hrest.2]
            simp
            omega

lemma heatmap_counted_from_ok (w : HWorld) (cap : Int) (names : List Json) :
    ∀ processed, ∀ e ∈ heatmap_counted_from w cap processed names,
    ∃ cs, extract_countries_from_entity e = some cs ∧ cs ≠ [] := by
  induction names with
  | nil => intro processed e he; simp [heatmap_counted_from] at he
  | cons n rest ih =>
    intro processed e he
    rw [heatmap_counted_from] at he
    cases hf : feed_of w n with
    | none =>
      rw [hf] at he
      exact ih processed e he
    | some ents =>
      rw [hf] at he
      simp only at he
      rcases hmir : ds_counted cap processed ents with ⟨l, cr⟩
      rw [hmir] at he
      simp only at he
      have hok := ds_counted_entities_ok cap ents processed
      rw [hmir] at hok
      cases cr with
      | true =>
        simp only [if_true, List.mem_append] at he
        rcases he with he | he
        · exact hok e he
        · exact ih _ e he
      | false =>
        simp only [Bool.false_eq_true, if_false] at he
        by_cases hcap : cap ≤ ((processed + l.length : Nat) : Int)
        · rw [if_pos hcap] at he
          exact hok e he
        · rw [if_neg hcap] at he
          rcases List.mem_append.mp he with he | he
          · exact hok e he
          · exact ih _ e he

/-- **C6.** The heatmap aggregation is fallback polling plus counting: for
every finite stream of entities processed by `build_heatmap_full`,
`totals` maps each country label to the number of actually counted entities
(the deterministic list `heatmap_counted w cap`, which mirrors the loop's
traversal of the stream) whose extracted (deduplicated) country list
contains that label, `meta.total_entities_with_country` equals the sum of
all per-country totals, and aggregation stops once the global entity cap is
reached: at most `cap` entities are ever counted. -/
theorem c6_heatmap_totals (env : Env) (w : HWorld) (cap : Int) (now : Rat)
    (hm : HeatmapData) (h : (build_heatmap_full env w cap now).1 = .ok hm) :
    (∀ c, counterGet hm.totals c = (heatmap_counted w cap).countP (countsEntity c)) ∧
    (∀ e ∈ heatmap_counted w cap,
      ∃ cs, extract_countries_from_entity e = some cs ∧ cs ≠ []) ∧
    (heatmap_counted w cap).length ≤ cap.toNat ∧
    hm.meta_total_entities_with_country = (hm.totals.map Prod.snd).sum := by
  rw [build_heatmap_full] at h
  cases ht : get_delivery_token env with
  | error e => rw [ht] at h; simp at h
  | ok tok =>
    rw [ht] at h
    simp only at h
    cases hi : w.index with
    | error e => rw [hi] at h; simp at h
    | ok data =>
      rw [hi] at h
      simp only at h
      have hmirror := build_loop_mirror w cap (iter_dataset_names data) ⟨[], [], [], 0⟩ [] 0
      have hple := build_loop_processed_le w cap (iter_dataset_names data) ⟨[], [], [], 0⟩ [] 0
      rcases hbl : build_loop w cap ⟨[], [], [], 0⟩ [] 0 (iter_dataset_names data)
        with ⟨st, attempts, count⟩
      rw [hbl] at h hmirror hple
      simp only at h hmirror hple
      simp only [Except.ok.injEq] at h
      have hcnt : heatmap_counted w cap
          = heatmap_counted_from w cap 0 (iter_dataset_names data) := by
        rw [heatmap_counted, hi]
      refine ⟨?_, ?_, ?_, ?_⟩
      · intro c
        rw [← h, hcnt]
        have hc := hmirror.1 c
        simpa [counterGet] using hc
      · rw [hcnt]
        intro e he
        exact heatmap_counted_from_ok w cap (iter_dataset_names data) 0 e he
      · rw [hcnt]
        have h2 := hmirror.2
        omega
      · rw [← h]

lemma build_made_iff (env : Env) (w : HWorld) (cap : Int) (now : Rat) :
    (build_heatmap_full env w cap now).2 = true ↔ heatmap_token env ≠ "" := by
  rw [build_heatmap_full, get_delivery_token]
  by_cases h : heatmap_token env = ""
  · rw [if_pos h]
    simp [h]
  · rw [if_neg h]
    simp only
    cases hi : w.index with
    | error e => simp [h]
    | ok data =>
      rcases hbl : build_loop w cap ⟨[], [], [], 0⟩ [] 0 (iter_dataset_names data)
        with ⟨st, a, c⟩
      simp [hbl, h]

lemma build_500_iff (env : Env) (w : HWorld) (cap : Int) (now : Rat) :
    (build_heatmap_full env w cap now).1 = .error 500 ↔ heatmap_token env = "" := by
  rw [build_heatmap_full, get_delivery_token]
  by_cases h : heatmap_token env = ""
  · rw [if_pos h]
    simp [h]
  · rw [if_neg h]
    simp only
    cases hi : w.index with
    | error e => simp [h]
    | ok data =>
      rcases hbl : build_loop w cap ⟨[], [], [], 0⟩ [] 0 (iter_dataset_names data)
        with ⟨st, a, c⟩
      simp [hbl, h]

/-- **C3, amended.** A `GET /heatmap` request performs upstream HTTP calls
if and only if it takes the rebuild path — `force` is set, the cache is
empty, or the cached data is older than the TTL — and the delivery token is
configured; on a fresh cache hit the handler returns the cached object
without any upstream call. -/
theorem c3_heatmap_upstream_amended (env : Env) (w : HWorld) (st : CacheState)
    (now : Rat) (force : Bool) (cap : Int) :
    ((get_heatmap env w st now force cap).2.2 = true ↔
      (¬(force = false ∧ st.data.isSome = true ∧
          now - st.updated_at < ((get_cache_ttl env : Int) : Rat)) ∧
        heatmap_token env ≠ "")) := by
  rw [get_heatmap]
  by_cases hc : force = false ∧ st.data.isSome = true ∧
      now - st.updated_at < ((get_cache_ttl env : Int) : Rat)
  · rw [if_pos hc]
    simp [hc]
  · rw [if_neg hc]
    simp only
    rcases hb : build_heatmap_full env w (if cap ≠ 0 then cap else 1000000) now
      with ⟨res, made⟩
    have hmi := build_made_iff env w (if cap ≠ 0 then cap else 1000000) now
    rw [hb] at hmi
    simp only at hmi
    cases res with
    | error e => simpa [hc] using hmi
    | ok data => simpa [hc] using hmi

/-- **C4, amended.** The only server-side state is the in-memory heatmap
cache: a `GET /heatmap` request either leaves it unchanged or stores the
freshly built data with the current timestamp, and data written by one
request is observable by a later request — a subsequent fresh-cache request
returns exactly the stored object, with the cache unchanged and no upstream
call.  (The `/screen` handler is stateless: its embedding is a pure function
of the request, the environment and the upstream responses.) -/
theorem c4_heatmap_cache_amended (env : Env) (w : HWorld) (st : CacheState)
    (now : Rat) (force : Bool) (cap : Int) :
    ((get_heatmap env w st now force cap).2.1 = st ∨
      ∃ hm, (get_heatmap env w st now force cap).1 = .ok hm ∧
        (get_heatmap env w st now force cap).2.1 = ⟨some hm, now⟩) ∧
    (∀ hm, st.data = some hm → force = false →
      now - st.updated_at < ((get_cache_ttl env : Int) : Rat) →
      (get_heatmap env w st now force cap).1 = .ok hm ∧
      (get_heatmap env w st now force cap).2.1 = st ∧
      (get_heatmap env w st now force cap).2.2 = false) := by
  constructor
  · rw [get_heatmap]
    by_cases hc : force = false ∧ st.data.isSome = true ∧
        now - st.updated_at < ((get_cache_ttl env : Int) : Rat)
    · rw [if_pos hc]
      exact Or.inl rfl
    · rw [if_neg hc]
      simp only
      rcases hb : build_heatmap_full env w (if cap ≠ 0 then cap else 1000000) now
        with ⟨res, made⟩
      cases res with
      | error e => exact Or.inl rfl
      | ok data => exact Or.inr ⟨data, rfl, rfl⟩
  · intro hm hdata hforce hlt
    rw [get_heatmap]
    have hc : force = false ∧ st.data.isSome = true ∧
        now - st.updated_at < ((get_cache_ttl env : Int) : Rat) :=
      ⟨hforce, by simp [hdata], hlt⟩
    rw [if_pos hc]
    simp [hdata]

/-- **C7.** Environment-variable key lookup is defensive: `POST /screen`
raises `HTTPException(500)` and makes no upstream request exactly when
`OPENSANCTIONS_KEY` is unset or empty, and a `GET /heatmap` rebuild
(`force=true`) raises `HTTPException(500)` exactly when none of
`OPENSANCTIONS_DELIVERY_TOKEN`, `OPENSANCTIONS_BULK_TOKEN`, or
`OPEN_SANCTIONS_DELIVERY_TOKEN` is set to a non-empty value. -/
theorem c7_env_key_lookup (env : Env) (up : Upstream) (name : String) (w : HWorld)
    (st : CacheState) (now : Rat) (cap : Int) :
    (screen_person env up name = (.error (.httpException 500), []) ↔
      (env "OPENSANCTIONS_KEY").getD "" = "") ∧
    ((get_heatmap env w st now true cap).1 = .error 500 ↔ heatmap_token env = "") ∧
    (heatmap_token env = "" ↔
      ((env "OPENSANCTIONS_DELIVERY_TOKEN").getD "" = "" ∧
        (env "OPENSANCTIONS_BULK_TOKEN").getD "" = "" ∧
        (env "OPEN_SANCTIONS_DELIVERY_TOKEN").getD "" = "")) := by
  refine ⟨screen_person_500_iff env up name, ?_, ?_⟩
  · rw [get_heatmap]
    have hnc : ¬((true : Bool) = false ∧ st.data.isSome = true ∧
        now - st.updated_at < ((get_cache_ttl env : Int) : Rat)) := by simp
    rw [if_neg hnc]
    simp only
    rcases hb : build_heatmap_full env w (if cap ≠ 0 then cap else 1000000) now
      with ⟨res, made⟩
    have h5 := build_500_iff env w (if cap ≠ 0 then cap else 1000000) now
    rw [hb] at h5
    simp only at h5
    cases res with
    | error e => simpa using h5
    | ok data => simpa using h5
  · rw [heatmap_token]
    by_cases ha : (env "OPENSANCTIONS_DELIVERY_TOKEN").getD "" = "" <;>
      by_cases hb : (env "OPENSANCTIONS_BULK_TOKEN").getD "" = "" <;>
        simp [ha, hb]

def hm0 : HeatmapData := ⟨[], [], [], 0, 0, 1000000, 0, 0, []⟩
def env_none : Env := fun _ => none
def w_none : HWorld := ⟨.error (), []⟩

/-- **C3, counterexample.** A `GET /heatmap` request served from a fresh
cache: the handler returns the cached object and performs no upstream HTTP
call, so the claim that every request performs at least one upstream call
before returning is false as stated. -/
theorem c3_heatmap_upstream_counterexample :
    get_heatmap env_none w_none ⟨some hm0, 100⟩ 100 false 1000000
      = (.ok hm0, ⟨some hm0, 100⟩, false) := by
  simp only [get_heatmap]
  rw [if_pos ?hc]
  case hc =>
    have h : get_cache_ttl env_none = 21600 := by rfl
    refine ⟨trivial, by simp, ?_⟩
    rw [h]
    norm_num
  rfl

def c6_env : Env := fun k => if k = "OPENSANCTIONS_DELIVERY_TOKEN" then some "t" else none

def c6_ent : List (String × Json) := [("properties", .obj [("country", .str "RU")])]

def c6_w : HWorld :=
  ⟨.ok (.obj [("datasets", .obj [("ds1", .obj [])])]), [("ds1", some [c6_ent])]⟩

def c6_sample : Json :=
  .obj [("id", .null), ("name", .null), ("countries", .arr [.str "Russia"]),
    ("datasets", .arr [])]

def c6_hm : HeatmapData :=
  ⟨[("Russia", 1)], [], [c6_sample], 1, 1, 1000000, 1, 50,
    [⟨"ds1", some "ds1", 1, 1, none⟩]⟩

def c4_w : HWorld := ⟨.ok (.obj []), []⟩
def c4_hm : HeatmapData := ⟨[], [], [], 0, 0, 1000000, 0, 50, []⟩

/-- **C4, counterexample.** A forced `GET /heatmap` rebuild writes the built
object into the module-level cache (the state after the request differs from
the state before), and a later request within the TTL observes exactly that
written data without contacting upstream: the claim that every handler
leaves all server-side state unchanged is false as stated. -/
theorem c4_heatmap_cache_counterexample :
    (get_heatmap c6_env c4_w ⟨none, 0⟩ 50 true 0) = (.ok c4_hm, ⟨some c4_hm, 50⟩, true) ∧
    (⟨some c4_hm, 50⟩ : CacheState) ≠ (⟨none, 0⟩ : CacheState) ∧
    (get_heatmap c6_env c4_w ⟨some c4_hm, 50⟩ 60 false 0)
      = (.ok c4_hm, ⟨some c4_hm, 50⟩, false) := by
  refine ⟨by rfl, ?_, ?_⟩
  · intro h
    simpa using congrArg CacheState.data h
  · simp only [get_heatmap]
    rw [if_pos ?hc]
    case hc =>
      have h : get_cache_ttl c6_env = 21600 := by rfl
      refine ⟨trivial, by simp, ?_⟩
      rw [h]
      norm_num
    rfl

/-- **C6, witness.** The aggregation run on one dataset containing one
entity with `country = "RU"`: the build succeeds, the deterministic counted
list is exactly that entity, and the theorem applied at this concrete input
gives the per-country count and the cap bound. -/
theorem c6_heatmap_totals_witness :
    (build_heatmap_full c6_env c6_w 1000000 50).1 = .ok c6_hm ∧
    heatmap_counted c6_w 1000000 = [c6_ent] ∧
    counterGet c6_hm.totals "Russia"
      = (heatmap_counted c6_w 1000000).countP (countsEntity "Russia") ∧
    (heatmap_counted c6_w 1000000).length ≤ (1000000 : Int).toNat :=
  ⟨by rfl, by rfl, (c6_heatmap_totals c6_env c6_w 1000000 50 c6_hm (by rfl)).1 "Russia",
    (c6_heatmap_totals c6_env c6_w 1000000 50 c6_hm (by rfl)).2.2.1⟩

/-- **C3, amended, witness.** A forced rebuild with the token configured
does make upstream calls: the amended equivalence applied at a concrete
request. -/
theorem c3_heatmap_upstream_amended_witness :
    (get_heatmap c6_env c4_w ⟨none, 0⟩ 50 true 0).2.2 = true :=
  (c3_heatmap_upstream_amended c6_env c4_w ⟨none, 0⟩ 50 true 0).mpr
    ⟨by simp, by decide⟩

/-- **C4, amended, witness.** The amended claim applied at a concrete pair
of requests: the data cached by a forced rebuild is returned unchanged, with
no upstream call, by a later fresh-cache request. -/
theorem c4_heatmap_cache_amended_witness :
    (get_heatmap c6_env c4_w ⟨some c4_hm, 50⟩ 60 false 0).1 = .ok c4_hm ∧
    (get_heatmap c6_env c4_w ⟨some c4_hm, 50⟩ 60 false 0).2.2 = false := by
  have h := (c4_heatmap_cache_amended c6_env c4_w ⟨some c4_hm, 50⟩ 60 false 0).2 c4_hm
    rfl rfl (by
      have hteq : get_cache_ttl c6_env = 21600 := by rfl
      rw [hteq]
      norm_num)
  exact ⟨h.1, h.2.2⟩

end Screener
